import Mathlib

/-!
# Visual-servoing effort controller: control-loop contract

A shallow embedding of `kdl_robot/src/kdl_robot_vision_control_effort.cpp`.

* `double` values are elements of a scalar type `α`, an ordered field; the loop only
  compares, subtracts and forwards them, so the loop model is generic in `α`. The
  constants 1.0, 1.5 and 2.5 are exact doubles and `t - 1.0` is exact for
  `1 < t ≤ 2.5`, so the window arithmetic is that of the doubles. The look-at
  geometry is read over the reals.
* A `std::vector<double>` is a `List α`; `v[i]` past the end is undefined
  behaviour and makes the embedded function return `none`.
* The collaborators whose code lives outside this file (`KDLRobot`,
  `KDLPlanner`, `KDLController`, the URDF parser) are parameters.
* Calls with an observable effect are recorded as `Event`s, in program order.
-/

namespace KdlVisionControl

/-! ## Shared state written by the subscriber callbacks -/

/-- The global variables of the node (`init_jnt_pos` is declared but never used). -/
structure Globals (α : Type) where
  jnt_pos : List α
  jnt_vel : List α
  aruco_pose : List α
  robot_state_available : Bool
  aruco_pose_available : Bool

/-- Initial values: `jnt_pos(7,0.0)`, `jnt_vel(7,0.0)`, `aruco_pose(7,0.0)`, both flags false. -/
def Globals.initial {α : Type} [Zero α] : Globals α :=
  { jnt_pos := List.replicate 7 0
    jnt_vel := List.replicate 7 0
    aruco_pose := List.replicate 7 0
    robot_state_available := false
    aruco_pose_available := false }

/-- The fields of `sensor_msgs::JointState` read by the node. -/
structure JointState (α : Type) where
  position : List α
  velocity : List α

/-- The fields of `geometry_msgs::PoseStamped` read by the node. -/
structure PoseStamped (α : Type) where
  px : α
  py : α
  pz : α
  ox : α
  oy : α
  oz : α
  ow : α

/-- The `for` loop of `jointStateCallback`: `k` iterations remain, `i` is the index. -/
def jointStateLoop {α : Type} (msg : JointState α) :
    Nat → Nat → Globals α → Option (Globals α)
  | 0, _, g => some g
  | k + 1, i, g =>
    match msg.position[i]?, msg.velocity[i]? with
    | some p, some v =>
      jointStateLoop msg k (i + 1)
        { g with jnt_pos := g.jnt_pos ++ [p], jnt_vel := g.jnt_vel ++ [v] }
    | _, _ => none

/-- The callback `jointStateCallback`: set the flag, clear both vectors, refill them. -/
def jointStateCallback {α : Type} (msg : JointState α) (g : Globals α) :
    Option (Globals α) :=
  jointStateLoop msg msg.position.length 0
    { g with robot_state_available := true, jnt_pos := [], jnt_vel := [] }

/-- The callback `arucoPoseCallback`: set the flag, store position then quaternion. -/
def arucoPoseCallback {α : Type} (msg : PoseStamped α) (g : Globals α) : Globals α :=
  { g with
    aruco_pose_available := true
    aruco_pose := [msg.px, msg.py, msg.pz, msg.ox, msg.oy, msg.oz, msg.ow] }

/-- A message waiting in one of the two subscriber queues. -/
inductive Msg (α : Type) where
  | joint (m : JointState α)
  | aruco (m : PoseStamped α)

/-- Dispatch of one queued message to its callback. -/
def deliver {α : Type} (g : Globals α) : Msg α → Option (Globals α)
  | .joint m => jointStateCallback m g
  | .aruco m => some (arucoPoseCallback m g)

/-- The call `ros::spinOnce()`: run the callbacks of the queued messages in order. -/
def spinOnce {α : Type} : Globals α → List (Msg α) → Option (Globals α)
  | g, [] => some g
  | g, m :: ms => (deliver g m).bind fun g1 => spinOnce g1 ms

/-! ## Vectors, rotations, frames (`KDL::Vector`, `KDL::Rotation`, `Eigen::Matrix3d`) -/

/-- A triple of scalars: `KDL::Vector`, `Eigen::Vector3d`. -/
structure Vec3 (α : Type) where
  x : α
  y : α
  z : α

/-- A 3×3 matrix stored by rows: `KDL::Rotation` (its `data[9]`), `Eigen::Matrix3d`. -/
structure Mat3 (α : Type) where
  m00 : α
  m01 : α
  m02 : α
  m10 : α
  m11 : α
  m12 : α
  m20 : α
  m21 : α
  m22 : α

/-- The pose type `KDL::Frame`: rotation `M` and origin `p`. -/
structure Frame (α : Type) where
  M : Mat3 α
  p : Vec3 α

/-- The velocity type `KDL::Twist`: linear part `vel`, angular part `rot`. -/
structure Twist (α : Type) where
  vel : Vec3 α
  rot : Vec3 α

/-- The functions of `<cmath>` used by the node and by the rotation builders. -/
structure Libm (α : Type) where
  sqrt : α → α
  acos : α → α
  cos : α → α
  sin : α → α

section Geometry

variable {α : Type} [LinearOrderedField α]

/-- The zero vector `KDL::Vector::Zero()`. -/
def Vec3.Zero : Vec3 α := ⟨0, 0, 0⟩

/-- The scalar product `a.dot(b)`. -/
def Vec3.dot (a b : Vec3 α) : α := a.x * b.x + a.y * b.y + a.z * b.z

/-- The identity `KDL::Rotation::Identity()`. -/
def Mat3.Identity : Mat3 α := ⟨1, 0, 0, 0, 1, 0, 0, 0, 1⟩

/-- The matrix product `A * B`. -/
def Mat3.mul (A B : Mat3 α) : Mat3 α :=
  ⟨A.m00 * B.m00 + A.m01 * B.m10 + A.m02 * B.m20,
   A.m00 * B.m01 + A.m01 * B.m11 + A.m02 * B.m21,
   A.m00 * B.m02 + A.m01 * B.m12 + A.m02 * B.m22,
   A.m10 * B.m00 + A.m11 * B.m10 + A.m12 * B.m20,
   A.m10 * B.m01 + A.m11 * B.m11 + A.m12 * B.m21,
   A.m10 * B.m02 + A.m11 * B.m12 + A.m12 * B.m22,
   A.m20 * B.m00 + A.m21 * B.m10 + A.m22 * B.m20,
   A.m20 * B.m01 + A.m21 * B.m11 + A.m22 * B.m21,
   A.m20 * B.m02 + A.m21 * B.m12 + A.m22 * B.m22⟩

/-- The matrix-vector product `A * v`. -/
def Mat3.mulVec (A : Mat3 α) (v : Vec3 α) : Vec3 α :=
  ⟨A.m00 * v.x + A.m01 * v.y + A.m02 * v.z,
   A.m10 * v.x + A.m11 * v.y + A.m12 * v.z,
   A.m20 * v.x + A.m21 * v.y + A.m22 * v.z⟩

/-- The inverse `KDL::Rotation::Inverse()`: the transposed matrix. -/
def Mat3.Inverse (A : Mat3 α) : Mat3 α :=
  ⟨A.m00, A.m10, A.m20, A.m01, A.m11, A.m21, A.m02, A.m12, A.m22⟩

/-- The determinant of a 3×3 matrix. -/
def Mat3.det (A : Mat3 α) : α :=
  A.m00 * (A.m11 * A.m22 - A.m12 * A.m21) - A.m01 * (A.m10 * A.m22 - A.m12 * A.m20)
    + A.m02 * (A.m10 * A.m21 - A.m11 * A.m20)

/-- The trace of a 3×3 matrix. -/
def Mat3.trace (A : Mat3 α) : α := A.m00 + A.m11 + A.m22

/-- A proper rotation: orthonormal (`A * Aᵀ = I`) with determinant one. -/
def Mat3.IsRotation (A : Mat3 α) : Prop :=
  A.mul A.Inverse = Mat3.Identity ∧ A.det = 1

/-- The zero twist `KDL::Twist::Zero()`. -/
def Twist.Zero : Twist α := ⟨Vec3.Zero, Vec3.Zero⟩

/-- The identity frame `KDL::Frame::Identity()`. -/
def Frame.Identity : Frame α := ⟨Mat3.Identity, Vec3.Zero⟩

/-- The rotation `KDL::Rotation::RotY(angle)`. -/
def RotY (L : Libm α) (angle : α) : Mat3 α :=
  ⟨L.cos angle, 0, L.sin angle, 0, 1, 0, -L.sin angle, 0, L.cos angle⟩

/-- The rotation `KDL::Rotation::RotZ(angle)`. -/
def RotZ (L : Libm α) (angle : α) : Mat3 α :=
  ⟨L.cos angle, -L.sin angle, 0, L.sin angle, L.cos angle, 0, 0, 0, 1⟩

/-- Modelled from the spec: `skew` comes from the package's utility header, which is
not part of the source tree. It is the skew-symmetric cross-product matrix of `t`,
so that `skew t * v` is `t × v`. -/
def skew (t : Vec3 α) : Mat3 α :=
  ⟨0, -t.z, t.y, t.z, 0, -t.x, -t.y, t.x, 0⟩

/-- The Eigen call `v.normalize()`: divide by the Euclidean norm; a vector whose
squared norm is not positive is left as it is. -/
def normalize (L : Libm α) (v : Vec3 α) : Vec3 α :=
  let z := v.x * v.x + v.y * v.y + v.z * v.z
  if 0 < z then ⟨v.x / L.sqrt z, v.y / L.sqrt z, v.z / L.sqrt z⟩ else v

/-- The length `KDL::Vector::Norm()`. -/
def Vec3.Norm (L : Libm α) (v : Vec3 α) : α :=
  L.sqrt (v.x * v.x + v.y * v.y + v.z * v.z)

/-- Modelled from the spec: `KDL::Rotation::Rot2` belongs to the KDL library, which is
not part of the source tree. It is the rotation by `angle` about the unit vector
`rotvec`, written out as `v vᵀ (1 - cos) + [v]ₓ sin + I cos`. -/
def Rot2 (L : Libm α) (rotvec : Vec3 α) (angle : α) : Mat3 α :=
  let ct := L.cos angle
  let st := L.sin angle
  let vt := 1 - ct
  ⟨ct + vt * rotvec.x * rotvec.x,
   -(rotvec.z * st) + vt * rotvec.x * rotvec.y,
   rotvec.y * st + vt * rotvec.x * rotvec.z,
   rotvec.z * st + vt * rotvec.x * rotvec.y,
   ct + vt * rotvec.y * rotvec.y,
   -(rotvec.x * st) + vt * rotvec.y * rotvec.z,
   -(rotvec.y * st) + vt * rotvec.x * rotvec.z,
   rotvec.x * st + vt * rotvec.y * rotvec.z,
   ct + vt * rotvec.z * rotvec.z⟩

/-- Modelled from the spec: the length below which a rotation axis counts as
near-zero. It is the tolerance `epsilon` of the KDL library, which is not part of the
source tree; its default value is `1e-6`. -/
def epsilon : α := 1 / 1000000

/-- Modelled from the spec: `KDL::Rotation::Rot` belongs to the KDL library, which is
not part of the source tree. It is the rotation by `angle` about the axis `rotvec`,
which need not be normalised. A near-zero axis, one shorter than `epsilon`, has no
usable direction; the library then rotates about its fallback axis, the X axis. -/
def Rot (L : Libm α) (rotvec : Vec3 α) (angle : α) : Mat3 α :=
  let v := rotvec.Norm L
  if v < epsilon then Rot2 L ⟨1, 0, 0⟩ angle
  else Rot2 L ⟨rotvec.x / v, rotvec.y / v, rotvec.z / v⟩ angle

/-- The local `aruco_pos_n` of the loop: the target position, normalised. -/
def aruco_pos_n (L : Libm α) (p : Vec3 α) : Vec3 α := normalize L p

/-- The local `r_o` of the loop: `skew((0,0,1)) * aruco_pos_n`. -/
def r_o (L : Libm α) (p : Vec3 α) : Vec3 α :=
  (skew ⟨0, 0, 1⟩).mulVec (aruco_pos_n L p)

/-- The local `aruco_angle` of the loop: `acos((0,0,1) · aruco_pos_n)`. -/
def aruco_angle (L : Libm α) (p : Vec3 α) : α :=
  L.acos (Vec3.dot ⟨0, 0, 1⟩ (aruco_pos_n L p))

/-- The local `Re` of the loop, the look-at rotation: `Rot(r_o, aruco_angle)`. -/
def Re (L : Libm α) (p : Vec3 α) : Mat3 α :=
  Rot L (r_o L p) (aruco_angle L p)

/-- The value assigned to `des_pose.M`: `robot.getEEFrame().M * Re * ee_T_cam.M.Inverse()`. -/
def desiredOrientation (eeM : Mat3 α) (re : Mat3 α) (camM : Mat3 α) : Mat3 α :=
  (eeM.mul re).mul camM.Inverse

end Geometry

/-- The real-number reading of `<cmath>`. -/
noncomputable def realLibm : Libm ℝ :=
  { sqrt := Real.sqrt, acos := Real.arccos, cos := Real.cos, sin := Real.sin }

/-! ## Collaborators, events and the local variables of `main` -/

/-- The planner output `trajectory_point`: position, velocity, acceleration. -/
structure trajectory_point (α : Type) where
  pos : Vec3 α
  vel : Vec3 α
  acc : Vec3 α

/-- The code used by the node but defined outside this file, taken as parameters:
the URDF parser (`urdf::Model::initFile`, `kdl_parser::treeFromUrdfModel`, each giving
its success flag and the object it wrote), `KDLRobot`, `KDLController::idCntr` (which
reads the robot it was built on; gives the torques and the error it wrote back) and
`KDLPlanner` (constructor arguments first, then those of `compute_trajectory`). -/
structure Collaborators (α : Type) where
  Model : Type
  Tree : Type
  Robot : Type
  emptyModel : Model
  emptyTree : Tree
  initFile : Model → String → Bool × Model
  treeFromUrdfModel : Model → Tree → Bool × Tree
  mkRobot : Tree → Robot
  update : Robot → List α → List α → Robot
  getNrJnts : Robot → Nat
  addEE : Robot → Frame α → Robot
  getEEFrame : Robot → Frame α
  getFlangeEE : Robot → Frame α
  getInverseKinematics : Robot → Frame α → Twist α → Twist α →
    List α → List α → List α → List α × List α × List α
  idCntr : Robot → List α → List α → List α → α → α → α → List α × α
  planner : α → α → α → Vec3 α → Vec3 α → α → Int → trajectory_point α

/-- The observable calls of the program, recorded in program order. -/
inductive Event (α : Type) where
  | log (text : String)
  | logTime (t : α)
  | robotUpdate (jnt_pos jnt_vel : List α)
  | computeTrajectory (time : α) (traj_choice : Int)
  | inverseKinematics (des_pose : Frame α) (des_cart_vel des_cart_acc : Twist α)
      (qd dqd ddqd : List α)
  | idCntr (qd dqd ddqd : List α) (Kp Kd : α)
  | publishTorque (tau : List α)
  | publishError (error : α)
  | pausePhysics

/-- How a pass through the loop body ends: at its last statement, or at `break`. -/
inductive Flow where
  | next
  | exit

/-- The local variables of `main` that are live across loop iterations. -/
structure Locals (α : Type) (C : Collaborators α) where
  robot : C.Robot
  planner : α → Int → trajectory_point α
  ee_T_cam : Frame α
  nrJnts : Nat
  t : α
  p : trajectory_point α
  error : α
  des_pose : Frame α
  des_cart_vel : Twist α
  des_cart_acc : Twist α
  qd : List α
  dqd : List α
  ddqd : List α

/-- What one loop iteration is given from outside: the value of `ros::ok()`, the
clock reading `(ros::Time::now()-begin).toSec()`, and the messages that
`ros::spinOnce()` finds queued at the end of the iteration. -/
structure TickInput (α : Type) where
  ros_ok : Bool
  now : α
  queued : List (Msg α)

section Loop

variable {α : Type} [LinearOrderedField α]

/-- The constant `traj_duration = 1.5`. -/
def traj_duration : α := 3 / 2

/-- The constant `acc_duration = 0.5`. -/
def acc_duration : α := 1 / 2

/-- The constant `init_time_slot = 1.0`. -/
def init_time_slot : α := 1

/-- The constant `traj_radius = 0.15`. -/
def traj_radius : α := 15 / 100

/-- The constant `traj_choice = 2`. -/
def traj_choice : Int := 2

/-- The function `createRobot`: parse, build the tree, wrap it; a failed step prints
its message and execution goes on to the next statement. -/
def createRobot (C : Collaborators α) (robot_string : String) :
    List (Event α) × C.Robot :=
  let parsed := C.initFile C.emptyModel robot_string
  let ev1 : List (Event α) :=
    if !parsed.1 then [Event.log "Failed to parse urdf robot model \n"] else []
  let built := C.treeFromUrdfModel parsed.2 C.emptyTree
  let ev2 : List (Event α) :=
    if !built.1 then [Event.log "Failed to construct kdl tree \n"] else []
  (ev1 ++ ev2, C.mkRobot built.2)

/-- The statements `tau1_msg.data = tau[0]; ...` and the eight `publish` calls. -/
def publish (tau : List α) (error : α) : Option (List (Event α)) := do
  let t0 ← tau[0]?
  let t1 ← tau[1]?
  let t2 ← tau[2]?
  let t3 ← tau[3]?
  let t4 ← tau[4]?
  let t5 ← tau[5]?
  let t6 ← tau[6]?
  pure [Event.publishTorque [t0, t1, t2, t3, t4, t5, t6], Event.publishError error]

/-- The block "Extract desired pose velocity and acceleration" of the loop body, run
after `t` has been assigned, up to and including `des_pose.p = ...`. -/
def extractDesired {C : Collaborators α} (l : Locals α C) :
    Locals α C × List (Event α) × Flow :=
  let l0 := { l with des_cart_vel := Twist.Zero, des_cart_acc := Twist.Zero }
  if l0.t ≤ init_time_slot then
    let p := l0.planner 0 traj_choice
    ({ l0 with p := p, des_pose := { l0.des_pose with p := ⟨p.pos.x, p.pos.y, p.pos.z⟩ } },
      [Event.computeTrajectory 0 traj_choice], Flow.next)
  else if l0.t > init_time_slot ∧ l0.t ≤ traj_duration + init_time_slot then
    let p := l0.planner (l0.t - init_time_slot) traj_choice
    ({ l0 with
        p := p
        des_cart_vel := ⟨⟨p.vel.x, p.vel.y, p.vel.z⟩, Vec3.Zero⟩
        des_cart_acc := ⟨⟨p.acc.x, p.acc.y, p.acc.z⟩, Vec3.Zero⟩
        des_pose := { l0.des_pose with p := ⟨p.pos.x, p.pos.y, p.pos.z⟩ } },
      [Event.computeTrajectory (l0.t - init_time_slot) traj_choice], Flow.next)
  else
    (l0, [Event.log "trajectory terminated"], Flow.exit)

/-- The position part of `cam_T_object`; building the frame reads all seven entries
of `aruco_pose`. (The rotation part of `cam_T_object` and `J_cam` are computed by the
source and never read.) -/
def targetPosition (g : Globals α) : Option (Vec3 α) := do
  let a0 ← g.aruco_pose[0]?
  let a1 ← g.aruco_pose[1]?
  let a2 ← g.aruco_pose[2]?
  let _ ← g.aruco_pose[3]?
  let _ ← g.aruco_pose[4]?
  let _ ← g.aruco_pose[5]?
  let _ ← g.aruco_pose[6]?
  pure ⟨a0, a1, a2⟩

/-- The statement `qd.data << jnt_pos[0], ..., jnt_pos[6]`: seven reads of `jnt_pos`,
written into an array of `nrJnts` entries, which has to hold exactly seven. -/
def currentJoints (g : Globals α) (nrJnts : Nat) : Option (List α) := do
  let q0 ← g.jnt_pos[0]?
  let q1 ← g.jnt_pos[1]?
  let q2 ← g.jnt_pos[2]?
  let q3 ← g.jnt_pos[3]?
  let q4 ← g.jnt_pos[4]?
  let q5 ← g.jnt_pos[5]?
  let q6 ← g.jnt_pos[6]?
  if nrJnts ≠ 7 then none else pure [q0, q1, q2, q3, q4, q5, q6]

/-- The part of the loop body after `des_pose.p = ...`: look-at rotation, inverse
kinematics, controller, publication. -/
def control {C : Collaborators α} (L : Libm α) (g : Globals α) (l : Locals α C) :
    Option (Locals α C × List (Event α)) := do
  let target ← targetPosition g
  let re := Re L target
  let qd ← currentJoints g l.nrJnts
  let des_pose : Frame α :=
    { l.des_pose with M := desiredOrientation (C.getEEFrame l.robot).M re l.ee_T_cam.M }
  let ik := C.getInverseKinematics l.robot des_pose l.des_cart_vel l.des_cart_acc
    qd l.dqd l.ddqd
  let Kp : α := 50
  let Kd : α := 2 * L.sqrt Kp
  let out := C.idCntr l.robot ik.1 ik.2.1 ik.2.2 Kp Kd l.error
  let pub ← publish out.1 out.2
  pure ({ l with des_pose := des_pose, qd := ik.1, dqd := ik.2.1, ddqd := ik.2.2,
                 error := out.2 },
    [Event.inverseKinematics des_pose l.des_cart_vel l.des_cart_acc qd l.dqd l.ddqd,
     Event.idCntr ik.1 ik.2.1 ik.2.2 Kp Kd] ++ pub)

/-- The body of `while (ros::ok())` up to the last `publish` call. -/
def loopBody {C : Collaborators α} (L : Libm α) (g : Globals α) (l : Locals α C)
    (now : α) : Option (Locals α C × List (Event α) × Flow) :=
  if g.robot_state_available && g.aruco_pose_available then
    let l1 := { l with robot := C.update l.robot g.jnt_pos g.jnt_vel, t := now }
    let ev1 := [Event.robotUpdate g.jnt_pos g.jnt_vel, Event.logTime now]
    match extractDesired l1 with
    | (l2, ev2, Flow.exit) => some (l2, ev1 ++ ev2, Flow.exit)
    | (l2, ev2, Flow.next) =>
      (control L g l2).map fun r => (r.1, ev1 ++ ev2 ++ r.2, Flow.next)
  else
    (publish (List.replicate 7 (0 : α)) l.error).map fun ev => (l, ev, Flow.next)

/-- The events of a finished run of the loop, one list per executed loop body, and
whether the loop was left by `break`. -/
structure Run (α : Type) where
  ticks : List (List (Event α))
  broke : Bool

/-- The loop `while (ros::ok()) { ... ros::spinOnce(); loop_rate.sleep(); }`, driven by
one `TickInput` per evaluation of the loop condition. The result is `none` when the
inputs end before the loop does, or when an iteration has undefined behaviour. -/
def controlLoop {C : Collaborators α} (L : Libm α) :
    Globals α → Locals α C → List (TickInput α) → Option (Run α)
  | _, _, [] => none
  | g, l, inp :: rest =>
    if inp.ros_ok then
      match loopBody L g l inp.now with
      | none => none
      | some (_, ev, Flow.exit) => some { ticks := [ev], broke := true }
      | some (l1, ev, Flow.next) =>
        match spinOnce g inp.queued with
        | none => none
        | some g1 =>
          (controlLoop L g1 l1 rest).map fun r => { r with ticks := ev :: r.ticks }
    else some { ticks := [], broke := false }

/-- The camera-in-flange transform `ee_T_cam` set up by `main`. -/
def ee_T_cam (L : Libm α) : Frame α :=
  { M := (RotY L (157 / 100)).mul (RotZ L (-(157 / 100)))
    p := ⟨0, 0, 25 / 1000⟩ }

/-- The function `main` from the comment `// Create robot` to `return 0`: the program
after the wait for the first joint state. `pause_ok` is the answer of the
`/gazebo/pause_physics` service. The result is the event trace of the run. -/
def mainFromCreate (C : Collaborators α) (L : Libm α) (robot_string : String)
    (g : Globals α) (inputs : List (TickInput α)) (pause_ok : Bool) :
    Option (List (Event α)) :=
  let created := createRobot C robot_string
  let robot1 := C.update created.2 g.jnt_pos g.jnt_vel
  let nrJnts := C.getNrJnts robot1
  let robot2 := C.addEE robot1 (ee_T_cam L)
  let robot3 := C.update robot2 g.jnt_pos g.jnt_vel
  let init_cart_pose := C.getEEFrame robot3
  let init_position := init_cart_pose.p
  let end_position : Vec3 α :=
    ⟨init_cart_pose.p.x, init_cart_pose.p.y + 1 / 2, init_cart_pose.p.z⟩
  let planner := C.planner traj_duration traj_radius acc_duration init_position end_position
  let l : Locals α C :=
    { robot := robot3
      planner := planner
      ee_T_cam := ee_T_cam L
      nrJnts := nrJnts
      t := 0
      p := planner 0 traj_choice
      error := 0
      des_pose := { Frame.Identity with M := (C.getFlangeEE robot3).M }
      des_cart_vel := Twist.Zero
      des_cart_acc := Twist.Zero
      qd := List.replicate nrJnts 0
      dqd := List.replicate nrJnts 0
      ddqd := List.replicate nrJnts 0 }
  (controlLoop L g l inputs).map fun r =>
    created.1
      ++ [Event.robotUpdate g.jnt_pos g.jnt_vel, Event.robotUpdate g.jnt_pos g.jnt_vel,
          Event.computeTrajectory 0 traj_choice, Event.log "Starting control loop ..."]
      ++ r.ticks.flatten
      ++ [Event.pausePhysics,
          Event.log (if pause_ok then "Simulation paused." else "Failed to pause simulation.")]

/-- Whether an event is a request to pause the simulation. -/
def Event.isPause : Event α → Bool
  | Event.pausePhysics => true
  | _ => false

/-- Whether an event is the publication of a set of joint torques. -/
def Event.isPublishTorque : Event α → Bool
  | Event.publishTorque _ => true
  | _ => false

/-- Whether an event is the publication of the tracking error. -/
def Event.isPublishError : Event α → Bool
  | Event.publishError _ => true
  | _ => false

/-- Whether an event is a call into the robot, the planner or the controller. -/
def Event.isComputation : Event α → Bool
  | Event.robotUpdate _ _ => true
  | Event.computeTrajectory _ _ => true
  | Event.inverseKinematics _ _ _ _ _ _ => true
  | Event.idCntr _ _ _ _ _ => true
  | _ => false

/-- The torque set published last in a trace, if any. -/
def lastTorque : List (Event α) → Option (List α)
  | [] => none
  | Event.publishTorque tau :: rest =>
    match lastTorque rest with
    | some later => some later
    | none => some tau
  | _ :: rest => lastTorque rest

/-- The angle of a rotation matrix, read off its trace: `acos((tr R - 1) / 2)`. -/
def rotationAngle (L : Libm α) (R : Mat3 α) : α := L.acos ((R.trace - 1) / 2)

end Loop

section Windows

variable {α : Type} [LinearOrderedField α]

/-- The state handed to the control step while the start point is held. -/
def holdState {C : Collaborators α} (l : Locals α C) : Locals α C :=
  { l with
    des_cart_vel := Twist.Zero
    des_cart_acc := Twist.Zero
    p := l.planner 0 traj_choice
    des_pose := { l.des_pose with p := (l.planner 0 traj_choice).pos } }

/-- The state handed to the control step while the plan is followed. -/
def followState {C : Collaborators α} (l : Locals α C) : Locals α C :=
  { l with
    des_cart_vel := ⟨(l.planner (l.t - init_time_slot) traj_choice).vel, Vec3.Zero⟩
    des_cart_acc := ⟨(l.planner (l.t - init_time_slot) traj_choice).acc, Vec3.Zero⟩
    p := l.planner (l.t - init_time_slot) traj_choice
    des_pose := { l.des_pose with p := (l.planner (l.t - init_time_slot) traj_choice).pos } }

end Windows

/-- A pass through the loop body that reaches the publication step: its last two
events are one torque set of seven entries and one error value, and nothing before
them is a publication or a pause request. -/
def IsPublishingTick {α : Type} (tick : List (Event α)) : Prop :=
  ∃ (pre : List (Event α)) (t : List α) (e : α),
    tick = pre ++ [Event.publishTorque t, Event.publishError e] ∧ t.length = 7 ∧
    ∀ x ∈ pre, x.isPublishTorque = false ∧ x.isPublishError = false ∧ x.isPause = false

/-- The pass through the loop body that executes `break`: robot update, time print,
the termination message, at a time past the end of the trajectory window. -/
def IsTerminatingTick {α : Type} [LinearOrderedField α] (tick : List (Event α)) : Prop :=
  ∃ (q dq : List α) (now : α),
    tick = [Event.robotUpdate q dq, Event.logTime now, Event.log "trajectory terminated"] ∧
    traj_duration + init_time_slot < now

/-! ## A concrete instance, for running the model -/

/-- A small stand-in for the collaborators: the description parses only at the path
`iiwa.urdf`, the robot remembers its joint count and last joint positions, inverse
kinematics hands its inputs back, the controller returns the desired joint positions
as torques, the planner moves along y at unit speed. -/
def demoCollaborators : Collaborators ℚ :=
  { Model := Bool
    Tree := Bool
    Robot := Nat × List ℚ
    emptyModel := false
    emptyTree := false
    initFile := fun _ path => (path == "iiwa.urdf", path == "iiwa.urdf")
    treeFromUrdfModel := fun m _ => (m, m)
    mkRobot := fun tree => (if tree then 7 else 0, [])
    update := fun r q _ => (r.1, q)
    getNrJnts := fun r => r.1
    addEE := fun r _ => r
    getEEFrame := fun _ => Frame.Identity
    getFlangeEE := fun _ => Frame.Identity
    getInverseKinematics := fun _ _ _ _ qd dqd ddqd => (qd, dqd, ddqd)
    idCntr := fun _ qd _ _ _ _ _ => (qd, 0)
    planner := fun _ _ _ start _ time _ =>
      ⟨⟨start.x, start.y + time, start.z⟩, ⟨0, 1, 0⟩, ⟨0, 0, 0⟩⟩ }

/-- A stand-in for `<cmath>` over the rationals; the loop only forwards its values. -/
def demoLibm : Libm ℚ :=
  { sqrt := fun x => x, acos := fun _ => 0, cos := fun _ => 1, sin := fun _ => 0 }

/-- Local variables of the loop for `demoCollaborators`, as `main` sets them up. -/
def demoLocals : Locals ℚ demoCollaborators :=
  { robot := (7, [])
    planner := fun time _ => ⟨⟨0, time, 0⟩, ⟨0, 1, 0⟩, ⟨0, 0, 0⟩⟩
    ee_T_cam := Frame.Identity
    nrJnts := 7
    t := 0
    p := ⟨⟨0, 0, 0⟩, ⟨0, 1, 0⟩, ⟨0, 0, 0⟩⟩
    error := 0
    des_pose := Frame.Identity
    des_cart_vel := Twist.Zero
    des_cart_acc := Twist.Zero
    qd := List.replicate 7 0
    dqd := List.replicate 7 0
    ddqd := List.replicate 7 0 }

/-- Shared state after one joint-state message and one target-pose message. -/
def demoGlobals : Globals ℚ :=
  { jnt_pos := [1, 2, 3, 4, 5, 6, 7]
    jnt_vel := [0, 0, 0, 0, 0, 0, 0]
    aruco_pose := [0, 0, 1, 0, 0, 0, 1]
    robot_state_available := true
    aruco_pose_available := true }

/-- Shared state after a joint-state message, before any target-pose message. -/
def demoGlobalsNoTarget : Globals ℚ :=
  { (Globals.initial : Globals ℚ) with
    jnt_pos := [1, 2, 3, 4, 5, 6, 7]
    robot_state_available := true }

/-- A stand-in for the collaborators over the reals: a seven-joint robot whose frames
are the identity, inverse kinematics that hands its inputs back, and a controller that
answers with the gain `Kp` on each of the seven joints. -/
noncomputable def demoCollaboratorsReal : Collaborators ℝ :=
  { Model := Bool
    Tree := Bool
    Robot := Nat × List ℝ
    emptyModel := false
    emptyTree := false
    initFile := fun _ path => (path == "iiwa.urdf", path == "iiwa.urdf")
    treeFromUrdfModel := fun m _ => (m, m)
    mkRobot := fun tree => (if tree then 7 else 0, [])
    update := fun r q _ => (r.1, q)
    getNrJnts := fun r => r.1
    addEE := fun r _ => r
    getEEFrame := fun _ => Frame.Identity
    getFlangeEE := fun _ => Frame.Identity
    getInverseKinematics := fun _ _ _ _ qd dqd ddqd => (qd, dqd, ddqd)
    idCntr := fun _ _ _ _ Kp _ _ => (List.replicate 7 Kp, 0)
    planner := fun _ _ _ start _ time _ =>
      ⟨⟨start.x, start.y + time, start.z⟩, ⟨0, 1, 0⟩, ⟨0, 0, 0⟩⟩ }

/-- Local variables of the loop for `demoCollaboratorsReal`, as `main` sets them up. -/
noncomputable def demoLocalsReal : Locals ℝ demoCollaboratorsReal :=
  { robot := (7, [])
    planner := fun time _ => ⟨⟨0, time, 0⟩, ⟨0, 1, 0⟩, ⟨0, 0, 0⟩⟩
    ee_T_cam := ee_T_cam realLibm
    nrJnts := 7
    t := 0
    p := ⟨⟨0, 0, 0⟩, ⟨0, 1, 0⟩, ⟨0, 0, 0⟩⟩
    error := 0
    des_pose := Frame.Identity
    des_cart_vel := Twist.Zero
    des_cart_acc := Twist.Zero
    qd := List.replicate 7 0
    dqd := List.replicate 7 0
    ddqd := List.replicate 7 0 }

/-- Shared state over the reals, the target straight ahead of the camera at `(0, 0, 1)`. -/
noncomputable def demoGlobalsReal : Globals ℝ :=
  { jnt_pos := [1, 2, 3, 4, 5, 6, 7]
    jnt_vel := [0, 0, 0, 0, 0, 0, 0]
    aruco_pose := [0, 0, 1, 0, 0, 0, 1]
    robot_state_available := true
    aruco_pose_available := true }

/-! ## Callbacks: what they store -/

theorem jointStateLoop_spec {α : Type} (msg : JointState α) :
    ∀ (k i : Nat) (g : Globals α), i + k = msg.position.length →
      msg.position.length ≤ msg.velocity.length →
      jointStateLoop msg k i g = some
        { g with
          jnt_pos := g.jnt_pos ++ msg.position.drop i
          jnt_vel := g.jnt_vel ++ (msg.velocity.drop i).take k } := by
  intro k
  induction k with
  | zero =>
    intro i g hi _
    have hdrop : msg.position.drop i = [] := List.drop_eq_nil_of_le (by omega)
    simp [jointStateLoop, hdrop]
  | succ k ih =>
    intro i g hi hle
    have hp : i < msg.position.length := by omega
    have hv : i < msg.velocity.length := by omega
    have e1 : msg.position[i]? = some msg.position[i] := List.getElem?_eq_getElem hp
    have e2 : msg.velocity[i]? = some msg.velocity[i] := List.getElem?_eq_getElem hv
    have d1 : msg.position.drop i = msg.position[i] :: msg.position.drop (i + 1) :=
      List.drop_eq_getElem_cons hp
    have d2 : msg.velocity.drop i = msg.velocity[i] :: msg.velocity.drop (i + 1) :=
      List.drop_eq_getElem_cons hv
    simp only [jointStateLoop, e1, e2]
    rw [ih (i + 1) _ (by omega) hle, d1, d2, List.take_succ_cons]
    simp only [List.append_assoc, List.singleton_append]

theorem jointStateCallback_eq {α : Type} (msg : JointState α) (g : Globals α)
    (hle : msg.position.length ≤ msg.velocity.length) :
    jointStateCallback msg g = some
      { g with
        robot_state_available := true
        jnt_pos := msg.position
        jnt_vel := msg.velocity.take msg.position.length } := by
  unfold jointStateCallback
  rw [jointStateLoop_spec msg msg.position.length 0 _ (by omega) hle]
  simp

theorem spinOnce_lengths {α : Type} :
    ∀ (msgs : List (Msg α)) (g : Globals α),
      (∀ m, Msg.joint m ∈ msgs → m.position.length ≤ m.velocity.length) →
      ∃ g1, spinOnce g msgs = some g1 ∧
        (g.jnt_pos.length = g.jnt_vel.length → g1.jnt_pos.length = g1.jnt_vel.length) ∧
        (g.aruco_pose.length = 7 → g1.aruco_pose.length = 7) ∧
        ((∀ m, Msg.joint m ∈ msgs → m.position.length = 7) →
          g.jnt_pos.length = 7 → g1.jnt_pos.length = 7) := by
  intro msgs
  induction msgs with
  | nil =>
    intro g _
    exact ⟨g, rfl, id, id, fun _ h => h⟩
  | cons m ms ih =>
    intro g hle
    have hle1 : ∀ m1, Msg.joint m1 ∈ ms → m1.position.length ≤ m1.velocity.length :=
      fun m1 h1 => hle m1 (List.mem_cons_of_mem _ h1)
    cases m with
    | joint jm =>
      have hjm : jm.position.length ≤ jm.velocity.length := hle jm (List.mem_cons_self _ _)
      obtain ⟨g1, hrun, heq, har, hseven⟩ := ih
        { g with robot_state_available := true, jnt_pos := jm.position,
                 jnt_vel := jm.velocity.take jm.position.length } hle1
      refine ⟨g1, ?_, ?_, ?_, ?_⟩
      · simp only [spinOnce, deliver, jointStateCallback_eq jm g hjm, Option.some_bind]
        exact hrun
      · intro _
        exact heq (by simp [List.length_take, hjm])
      · exact har
      · intro h7 _
        exact hseven (fun m1 h1 => h7 m1 (List.mem_cons_of_mem _ h1))
          (h7 jm (List.mem_cons_self _ _))
    | aruco am =>
      obtain ⟨g1, hrun, heq, har, hseven⟩ := ih (arucoPoseCallback am g) hle1
      refine ⟨g1, ?_, heq, ?_, ?_⟩
      · simp only [spinOnce, deliver, Option.some_bind]
        exact hrun
      · intro _
        exact har rfl
      · intro h7 hg
        exact hseven (fun m1 h1 => h7 m1 (List.mem_cons_of_mem _ h1)) hg

/-- C8 (as stated, refuted): a joint-state message with one position and two
velocities leaves `jnt_vel = [2]`, which is not the message's velocity sequence. -/
theorem jointStateCallback_drops_extra_velocities :
    ∃ g1, jointStateCallback (⟨[1], [2, 3]⟩ : JointState ℚ) Globals.initial = some g1 ∧
      g1.jnt_vel = [2] ∧ g1.jnt_vel ≠ (⟨[1], [2, 3]⟩ : JointState ℚ).velocity := by
  refine ⟨_, rfl, rfl, ?_⟩
  decide

/-- C8 (amended): for every joint-state message that carries at least as many
velocities as positions, `jointStateCallback` returns; afterwards `jnt_pos` is the
message's position sequence, `jnt_vel` is the first `position.size()` velocities in
message order (the whole velocity sequence when the two sizes agree), nothing of the
previous snapshot is left, both have the same length, `robot_state_available` is
true, and the target-pose variables are untouched. -/
theorem jointStateCallback_stores_snapshot {α : Type} (msg : JointState α)
    (g : Globals α) (hle : msg.position.length ≤ msg.velocity.length) :
    ∃ g1, jointStateCallback msg g = some g1 ∧
      g1.jnt_pos = msg.position ∧
      g1.jnt_vel = msg.velocity.take msg.position.length ∧
      (msg.velocity.length = msg.position.length → g1.jnt_vel = msg.velocity) ∧
      g1.jnt_pos.length = g1.jnt_vel.length ∧
      g1.robot_state_available = true ∧
      g1.aruco_pose = g.aruco_pose ∧
      g1.aruco_pose_available = g.aruco_pose_available := by
  refine ⟨_, jointStateCallback_eq msg g hle, rfl, rfl, ?_, ?_, rfl, rfl, rfl⟩
  · intro h
    simp only [← h, List.take_length]
  · simp [List.length_take, hle]

/-- An instance of C8 (amended): a message with two positions and two velocities. -/
theorem jointStateCallback_stores_snapshot_witness :
    ([1, 2] : List ℚ).length ≤ ([3, 4] : List ℚ).length ∧
    ∃ g1, jointStateCallback (⟨[1, 2], [3, 4]⟩ : JointState ℚ) demoGlobals = some g1 ∧
      g1.jnt_pos = [1, 2] ∧ g1.jnt_vel = [3, 4] ∧ g1.robot_state_available = true :=
  ⟨by decide,
    match jointStateCallback_stores_snapshot (⟨[1, 2], [3, 4]⟩ : JointState ℚ) demoGlobals
      (by decide) with
    | ⟨g1, h1, h2, _, h4, _, h6, _⟩ => ⟨g1, h1, h2, h4 rfl, h6⟩⟩

/-- C9 (as stated, refuted): after a joint-state message with three positions,
`jnt_pos` and `jnt_vel` have three elements, and `jnt_pos[3]` is out of bounds. -/
theorem joint_vectors_follow_message_size :
    ∃ g1, spinOnce (Globals.initial : Globals ℚ) [Msg.joint ⟨[1, 2, 3], [4, 5, 6]⟩] = some g1 ∧
      g1.jnt_pos.length = 3 ∧ g1.jnt_vel.length = 3 ∧ g1.jnt_pos[3]? = none := by
  exact ⟨_, rfl, rfl, rfl, rfl⟩

/-- C9 (amended): from the initial state, every sequence of callback invocations whose
joint-state messages carry at least as many velocities as positions leads to a state in
which `jnt_pos` and `jnt_vel` have the same length and `aruco_pose` has exactly 7
elements; when moreover every joint-state message carries exactly 7 positions,
`jnt_pos` and `jnt_vel` have exactly 7 elements and the reads `jnt_pos[0..6]` are in
bounds. The zero-torque command has 7 entries, so its reads `tau[0..6]` are in
bounds. -/
theorem reachable_joint_vector_lengths {α : Type} [Zero α] (msgs : List (Msg α))
    (hle : ∀ m, Msg.joint m ∈ msgs → m.position.length ≤ m.velocity.length) :
    ∃ g1, spinOnce (Globals.initial : Globals α) msgs = some g1 ∧
      g1.jnt_pos.length = g1.jnt_vel.length ∧
      g1.aruco_pose.length = 7 ∧
      ((∀ m, Msg.joint m ∈ msgs → m.position.length = 7) →
        g1.jnt_pos.length = 7 ∧ g1.jnt_vel.length = 7 ∧
        ∀ i, i < 7 → (g1.jnt_pos[i]?).isSome = true) ∧
      (∀ error : α, (publish (List.replicate 7 (0 : α)) error).isSome = true) := by
  obtain ⟨g1, hrun, heq, har, hseven⟩ := spinOnce_lengths msgs Globals.initial hle
  have h1 : g1.jnt_pos.length = g1.jnt_vel.length := heq (by simp [Globals.initial])
  refine ⟨g1, hrun, h1, har (by simp [Globals.initial]), ?_, fun _ => rfl⟩
  intro h7
  have h2 : g1.jnt_pos.length = 7 := hseven h7 (by simp [Globals.initial])
  refine ⟨h2, by omega, ?_⟩
  intro i hi
  have hlt : i < g1.jnt_pos.length := by omega
  simp [List.getElem?_eq_getElem hlt]

/-- An instance of C9 (amended): one full joint-state message, then one target pose. -/
theorem reachable_joint_vector_lengths_witness :
    (∀ m, Msg.joint m ∈ [Msg.joint ⟨[1, 2, 3, 4, 5, 6, 7], [0, 0, 0, 0, 0, 0, 0]⟩,
        (Msg.aruco ⟨0, 0, 1, 0, 0, 0, 1⟩ : Msg ℚ)] →
      m.position.length ≤ m.velocity.length) ∧
    ∃ g1, spinOnce (Globals.initial : Globals ℚ)
        [Msg.joint ⟨[1, 2, 3, 4, 5, 6, 7], [0, 0, 0, 0, 0, 0, 0]⟩,
         Msg.aruco ⟨0, 0, 1, 0, 0, 0, 1⟩] = some g1 ∧
      g1.jnt_pos.length = g1.jnt_vel.length ∧ g1.aruco_pose.length = 7 :=
  have hle : ∀ m, Msg.joint m ∈ [Msg.joint ⟨[1, 2, 3, 4, 5, 6, 7], [0, 0, 0, 0, 0, 0, 0]⟩,
      (Msg.aruco ⟨0, 0, 1, 0, 0, 0, 1⟩ : Msg ℚ)] →
      m.position.length ≤ m.velocity.length := by
    intro m hm
    simp only [List.mem_cons, Msg.joint.injEq, List.mem_singleton, reduceCtorEq,
      List.not_mem_nil, or_false] at hm
    subst hm
    decide
  ⟨hle,
    match reachable_joint_vector_lengths _ hle with
    | ⟨g1, h1, h2, h3, _⟩ => ⟨g1, h1, h2, h3⟩⟩

/-! ## List facts about event traces -/

theorem publishing_counts {α : Type} {tick : List (Event α)} (h : IsPublishingTick tick) :
    tick.countP Event.isPublishTorque = 1 ∧ tick.countP Event.isPublishError = 1 ∧
    tick.countP Event.isPause = 0 := by
  obtain ⟨pre, t, e, rfl, _, hpre⟩ := h
  have h1 : pre.countP Event.isPublishTorque = 0 :=
    List.countP_eq_zero.mpr fun x hx => by simp [(hpre x hx).1]
  have h2 : pre.countP Event.isPublishError = 0 :=
    List.countP_eq_zero.mpr fun x hx => by simp [(hpre x hx).2.1]
  have h3 : pre.countP Event.isPause = 0 :=
    List.countP_eq_zero.mpr fun x hx => by simp [(hpre x hx).2.2]
  simp [List.countP_append, h1, h2, h3, List.countP_cons, Event.isPublishTorque,
    Event.isPublishError, Event.isPause]

theorem lastTorque_append_none {α : Type} (a b : List (Event α)) (h : lastTorque b = none) :
    lastTorque (a ++ b) = lastTorque a := by
  induction a with
  | nil => simpa [lastTorque] using h
  | cons x xs ih =>
    cases x <;> simp [lastTorque, ih]

theorem flatten_counts {α : Type} (ticks : List (List (Event α)))
    (h : ∀ tick ∈ ticks, IsPublishingTick tick) :
    ticks.flatten.countP Event.isPublishTorque = ticks.length ∧
    ticks.flatten.countP Event.isPublishError = ticks.length ∧
    ticks.flatten.countP Event.isPause = 0 := by
  induction ticks with
  | nil => simp
  | cons x xs ih =>
    obtain ⟨h1, h2, h3⟩ := publishing_counts (h x (List.mem_cons_self _ _))
    obtain ⟨i1, i2, i3⟩ := ih fun tick ht => h tick (List.mem_cons_of_mem _ ht)
    refine ⟨?_, ?_, ?_⟩ <;>
      simp only [List.flatten_cons, List.countP_append, List.length_cons] <;> omega

theorem createRobot_logs {α : Type} (C : Collaborators α) (robot_string : String) :
    ∀ e ∈ (createRobot C robot_string).1, e.isPause = false ∧ e.isPublishTorque = false := by
  intro e he
  simp only [createRobot, List.mem_append] at he
  rcases he with he | he
  · split at he
    · simp only [List.mem_singleton] at he
      subst he
      exact ⟨rfl, rfl⟩
    · simp at he
  · split at he
    · simp only [List.mem_singleton] at he
      subst he
      exact ⟨rfl, rfl⟩
    · simp at he

/-! ## The loop body -/

theorem publish_eq_some {α : Type} (tau : List α) (error : α) (ev : List (Event α))
    (h : publish tau error = some ev) :
    ∃ t : List α, t.length = 7 ∧ ev = [Event.publishTorque t, Event.publishError error] := by
  simp only [publish, Option.bind_eq_bind, Option.bind_eq_some, Option.pure_def,
    Option.some.injEq] at h
  obtain ⟨t0, _, t1, _, t2, _, t3, _, t4, _, t5, _, t6, _, rfl⟩ := h
  exact ⟨[t0, t1, t2, t3, t4, t5, t6], rfl, rfl⟩

section LoopFacts

variable {α : Type} [LinearOrderedField α]

theorem publish_zero (error : α) :
    publish (List.replicate 7 (0 : α)) error
      = some [Event.publishTorque [0, 0, 0, 0, 0, 0, 0], Event.publishError error] := by
  rfl

theorem control_eq_some {C : Collaborators α} (L : Libm α) (g : Globals α)
    (l : Locals α C) (r : Locals α C × List (Event α)) (h : control L g l = some r) :
    ∃ (target : Vec3 α) (qd t : List α) (error : α),
      targetPosition g = some target ∧ currentJoints g l.nrJnts = some qd ∧
      t.length = 7 ∧
      r.1.des_pose = { l.des_pose with
        M := desiredOrientation (C.getEEFrame l.robot).M (Re L target) l.ee_T_cam.M } ∧
      r.2 = [Event.inverseKinematics r.1.des_pose l.des_cart_vel l.des_cart_acc qd l.dqd l.ddqd,
             Event.idCntr r.1.qd r.1.dqd r.1.ddqd 50 (2 * L.sqrt 50),
             Event.publishTorque t, Event.publishError error] := by
  simp only [control, Option.bind_eq_bind, Option.bind_eq_some, Option.pure_def,
    Option.some.injEq] at h
  obtain ⟨target, ht, qd, hq, pub, hp, rfl⟩ := h
  obtain ⟨t, hlen, rfl⟩ := publish_eq_some _ _ _ hp
  exact ⟨target, qd, t, _, ht, hq, hlen, rfl, rfl⟩

theorem extractDesired_hold {C : Collaborators α} (l : Locals α C)
    (h : l.t ≤ init_time_slot) :
    extractDesired l = (holdState l, [Event.computeTrajectory 0 traj_choice], Flow.next) := by
  simp only [extractDesired, if_pos h, holdState]

theorem extractDesired_follow {C : Collaborators α} (l : Locals α C)
    (h1 : init_time_slot < l.t) (h2 : l.t ≤ traj_duration + init_time_slot) :
    extractDesired l = (followState l,
      [Event.computeTrajectory (l.t - init_time_slot) traj_choice], Flow.next) := by
  have hn : ¬ l.t ≤ init_time_slot := not_le.mpr h1
  have hy : l.t > init_time_slot ∧ l.t ≤ traj_duration + init_time_slot := ⟨h1, h2⟩
  simp only [extractDesired, if_neg hn, if_pos hy, followState]

theorem extractDesired_exit {C : Collaborators α} (l : Locals α C)
    (h : traj_duration + init_time_slot < l.t) :
    extractDesired l = ({ l with des_cart_vel := Twist.Zero, des_cart_acc := Twist.Zero },
      [Event.log "trajectory terminated"], Flow.exit) := by
  have h0 : (0 : α) < traj_duration := by
    simp only [traj_duration]
    norm_num
  have hn : ¬ l.t ≤ init_time_slot := by
    rw [not_le]
    linarith
  have hy : ¬ (l.t > init_time_slot ∧ l.t ≤ traj_duration + init_time_slot) :=
    fun hy => absurd hy.2 (not_le.mpr h)
  simp only [extractDesired, if_neg hn, if_neg hy]

end LoopFacts

section LoopClaims

variable {α : Type} [LinearOrderedField α]

theorem loopBody_unavailable {C : Collaborators α} (L : Libm α) (g : Globals α)
    (l : Locals α C) (now : α)
    (h : g.robot_state_available = false ∨ g.aruco_pose_available = false) :
    loopBody L g l now = some (l,
      [Event.publishTorque [0, 0, 0, 0, 0, 0, 0], Event.publishError l.error], Flow.next) := by
  have hc : (g.robot_state_available && g.aruco_pose_available) = false := by
    rcases h with h | h <;> simp [h]
  simp only [loopBody, hc, Bool.false_eq_true, if_false, publish_zero, Option.map_some']

theorem loopBody_hold {C : Collaborators α} (L : Libm α) (g : Globals α)
    (l : Locals α C) (now : α) (hr : g.robot_state_available = true)
    (ha : g.aruco_pose_available = true) (h : now ≤ init_time_slot) :
    loopBody L g l now =
      (control L g
        (holdState { l with robot := C.update l.robot g.jnt_pos g.jnt_vel, t := now })).map
        fun r => (r.1,
          [Event.robotUpdate g.jnt_pos g.jnt_vel, Event.logTime now,
           Event.computeTrajectory 0 traj_choice] ++ r.2, Flow.next) := by
  have hl : ({ l with robot := C.update l.robot g.jnt_pos g.jnt_vel, t := now } :
      Locals α C).t ≤ init_time_slot := h
  simp only [loopBody, hr, ha, Bool.and_self, if_true, extractDesired_hold _ hl,
    List.cons_append, List.nil_append]

theorem loopBody_follow {C : Collaborators α} (L : Libm α) (g : Globals α)
    (l : Locals α C) (now : α) (hr : g.robot_state_available = true)
    (ha : g.aruco_pose_available = true) (h1 : init_time_slot < now)
    (h2 : now ≤ traj_duration + init_time_slot) :
    loopBody L g l now =
      (control L g
        (followState { l with robot := C.update l.robot g.jnt_pos g.jnt_vel, t := now })).map
        fun r => (r.1,
          [Event.robotUpdate g.jnt_pos g.jnt_vel, Event.logTime now,
           Event.computeTrajectory (now - init_time_slot) traj_choice] ++ r.2, Flow.next) := by
  have hl1 : init_time_slot <
      ({ l with robot := C.update l.robot g.jnt_pos g.jnt_vel, t := now } : Locals α C).t := h1
  have hl2 : ({ l with robot := C.update l.robot g.jnt_pos g.jnt_vel, t := now } :
      Locals α C).t ≤ traj_duration + init_time_slot := h2
  simp only [loopBody, hr, ha, Bool.and_self, if_true, extractDesired_follow _ hl1 hl2,
    List.cons_append, List.nil_append]

theorem loopBody_exit {C : Collaborators α} (L : Libm α) (g : Globals α)
    (l : Locals α C) (now : α) (hr : g.robot_state_available = true)
    (ha : g.aruco_pose_available = true) (h : traj_duration + init_time_slot < now) :
    loopBody L g l now = some
      ({ l with robot := C.update l.robot g.jnt_pos g.jnt_vel, t := now,
                des_cart_vel := Twist.Zero, des_cart_acc := Twist.Zero },
       [Event.robotUpdate g.jnt_pos g.jnt_vel, Event.logTime now,
        Event.log "trajectory terminated"], Flow.exit) := by
  have hl : traj_duration + init_time_slot <
      ({ l with robot := C.update l.robot g.jnt_pos g.jnt_vel, t := now } : Locals α C).t := h
  simp only [loopBody, hr, ha, Bool.and_self, if_true, extractDesired_exit _ hl,
    List.cons_append, List.nil_append]

theorem control_events {C : Collaborators α} (L : Libm α) (g : Globals α)
    (l : Locals α C) (r : Locals α C × List (Event α)) (h : control L g l = some r) :
    ∃ (a b : Event α) (t : List α) (e : α),
      r.2 = [a, b, Event.publishTorque t, Event.publishError e] ∧ t.length = 7 ∧
      ∀ x ∈ [a, b], x.isPublishTorque = false ∧ x.isPublishError = false ∧
        x.isPause = false := by
  obtain ⟨_, _, t, e, _, _, hlen, _, hev⟩ := control_eq_some L g l r h
  refine ⟨_, _, t, e, hev, hlen, ?_⟩
  intro x hx
  simp only [List.mem_cons, List.mem_singleton, List.not_mem_nil, or_false] at hx
  rcases hx with rfl | rfl <;> exact ⟨rfl, rfl, rfl⟩

/-- Every completed pass through the loop body either reaches the publication, with
exactly one torque set of seven entries and one error value as its last two events,
or is the terminating pass, which publishes nothing. No pass requests a pause. -/
theorem loopBody_shape {C : Collaborators α} (L : Libm α) (g : Globals α)
    (l l1 : Locals α C) (now : α) (ev : List (Event α)) (flow : Flow)
    (h : loopBody L g l now = some (l1, ev, flow)) :
    (flow = Flow.next ∧ ∃ (pre : List (Event α)) (t : List α) (e : α),
        ev = pre ++ [Event.publishTorque t, Event.publishError e] ∧ t.length = 7 ∧
        ∀ x ∈ pre, x.isPublishTorque = false ∧ x.isPublishError = false ∧
          x.isPause = false) ∨
    (flow = Flow.exit ∧
      ev = [Event.robotUpdate g.jnt_pos g.jnt_vel, Event.logTime now,
            Event.log "trajectory terminated"] ∧
      traj_duration + init_time_slot < now) := by
  by_cases hflags : g.robot_state_available = true ∧ g.aruco_pose_available = true
  · obtain ⟨hr, ha⟩ := hflags
    rcases le_or_lt now init_time_slot with h1 | h1
    · rw [loopBody_hold L g l now hr ha h1] at h
      simp only [Option.map_eq_some', Prod.mk.injEq] at h
      obtain ⟨r, hrun, _, rfl, rfl⟩ := h
      obtain ⟨a, b, t, e, hev, hlen, hab⟩ := control_events L g _ r hrun
      refine Or.inl ⟨rfl, [Event.robotUpdate g.jnt_pos g.jnt_vel, Event.logTime now,
        Event.computeTrajectory 0 traj_choice, a, b], t, e, ?_, hlen, ?_⟩
      · rw [hev]
        rfl
      · intro x hx
        simp only [List.mem_cons, List.mem_singleton, List.not_mem_nil, or_false] at hx
        rcases hx with rfl | rfl | rfl | rfl | rfl
        · exact ⟨rfl, rfl, rfl⟩
        · exact ⟨rfl, rfl, rfl⟩
        · exact ⟨rfl, rfl, rfl⟩
        · exact hab _ (List.mem_cons_self _ _)
        · exact hab _ (List.mem_cons_of_mem _ (List.mem_cons_self _ _))
    · rcases le_or_lt now (traj_duration + init_time_slot) with h2 | h2
      · rw [loopBody_follow L g l now hr ha h1 h2] at h
        simp only [Option.map_eq_some', Prod.mk.injEq] at h
        obtain ⟨r, hrun, _, rfl, rfl⟩ := h
        obtain ⟨a, b, t, e, hev, hlen, hab⟩ := control_events L g _ r hrun
        refine Or.inl ⟨rfl, [Event.robotUpdate g.jnt_pos g.jnt_vel, Event.logTime now,
          Event.computeTrajectory (now - init_time_slot) traj_choice, a, b], t, e, ?_, hlen, ?_⟩
        · rw [hev]
          rfl
        · intro x hx
          simp only [List.mem_cons, List.mem_singleton, List.not_mem_nil, or_false] at hx
          rcases hx with rfl | rfl | rfl | rfl | rfl
          · exact ⟨rfl, rfl, rfl⟩
          · exact ⟨rfl, rfl, rfl⟩
          · exact ⟨rfl, rfl, rfl⟩
          · exact hab _ (List.mem_cons_self _ _)
          · exact hab _ (List.mem_cons_of_mem _ (List.mem_cons_self _ _))
      · rw [loopBody_exit L g l now hr ha h2] at h
        simp only [Option.some.injEq, Prod.mk.injEq] at h
        obtain ⟨_, rfl, rfl⟩ := h
        exact Or.inr ⟨rfl, rfl, h2⟩
  · have hoff : g.robot_state_available = false ∨ g.aruco_pose_available = false := by
      by_contra hcon
      push_neg at hcon
      exact hflags ⟨by simpa using hcon.1, by simpa using hcon.2⟩
    rw [loopBody_unavailable L g l now hoff] at h
    simp only [Option.some.injEq, Prod.mk.injEq] at h
    obtain ⟨_, rfl, rfl⟩ := h
    exact Or.inl ⟨rfl, [], _, _, rfl, rfl, by simp⟩

theorem terminating_counts {tick : List (Event α)} (h : IsTerminatingTick tick) :
    tick.countP Event.isPublishTorque = 0 ∧ tick.countP Event.isPublishError = 0 ∧
    tick.countP Event.isPause = 0 ∧ lastTorque tick = none := by
  obtain ⟨q, dq, now, rfl, _⟩ := h
  simp [List.countP_cons, Event.isPublishTorque, Event.isPublishError, Event.isPause,
    lastTorque]

/-- The events of a finished loop: every pass publishes once, except a final
terminating pass when the loop was left by `break`. -/
theorem controlLoop_shape {C : Collaborators α} (L : Libm α) :
    ∀ (inputs : List (TickInput α)) (g : Globals α) (l : Locals α C) (run : Run α),
      controlLoop L g l inputs = some run →
      (run.broke = false → ∀ tick ∈ run.ticks, IsPublishingTick tick) ∧
      (run.broke = true → ∃ before term, run.ticks = before ++ [term] ∧
        (∀ tick ∈ before, IsPublishingTick tick) ∧ IsTerminatingTick term) := by
  intro inputs
  induction inputs with
  | nil =>
    intro g l run h
    simp [controlLoop] at h
  | cons inp rest ih =>
    intro g l run h
    unfold controlLoop at h
    by_cases hok : inp.ros_ok = true
    · simp only [hok, if_true] at h
      cases hbody : loopBody L g l inp.now with
      | none => simp [hbody] at h
      | some res =>
        obtain ⟨l1, ev, flow⟩ := res
        rcases loopBody_shape L g l l1 inp.now ev flow hbody with
          ⟨rfl, pre, t, e, hev, hlen, hpre⟩ | ⟨rfl, hev, hlate⟩
        · simp only [hbody] at h
          cases hspin : spinOnce g inp.queued with
          | none => simp [hspin] at h
          | some g1 =>
            simp only [hspin, Option.map_eq_some'] at h
            obtain ⟨r, hr, rfl⟩ := h
            obtain ⟨ih1, ih2⟩ := ih g1 l1 r hr
            have hpub : IsPublishingTick ev := ⟨pre, t, e, hev, hlen, hpre⟩
            refine ⟨?_, ?_⟩
            · intro hb tick ht
              rcases List.mem_cons.mp ht with rfl | ht
              · exact hpub
              · exact ih1 hb tick ht
            · intro hb
              obtain ⟨before, term, hticks, hbefore, hterm⟩ := ih2 hb
              refine ⟨ev :: before, term, by simp [hticks], ?_, hterm⟩
              intro tick ht
              rcases List.mem_cons.mp ht with rfl | ht
              · exact hpub
              · exact hbefore tick ht
        · simp only [hbody, Option.some.injEq] at h
          subst h
          refine ⟨by simp, fun _ => ⟨[], ev, rfl, by simp, ?_⟩⟩
          exact ⟨_, _, _, hev, hlate⟩
    · simp only [hok, Bool.false_eq_true, if_false, Option.some.injEq] at h
      subst h
      exact ⟨by simp, by simp⟩

end LoopClaims

/-! ## The control loop: claims -/

section LoopTheorems

variable {α : Type} [LinearOrderedField α]

/-- C1: on a pass through the loop body with `robot_state_available` or
`aruco_pose_available` false, the published torque set has exactly 7 entries, each
equal to zero; the only events of the pass are that publication and the publication
of the stored error value; no robot update, planner, inverse-kinematics or controller
call is made, and the local variables (the robot among them) are left as they were. -/
theorem zero_torque_when_input_unavailable {C : Collaborators α} (L : Libm α)
    (g : Globals α) (l : Locals α C) (now : α)
    (h : g.robot_state_available = false ∨ g.aruco_pose_available = false) :
    ∃ (tau : List α) (ev : List (Event α)),
      loopBody L g l now = some (l, ev, Flow.next) ∧
      ev = [Event.publishTorque tau, Event.publishError l.error] ∧
      tau.length = 7 ∧ (∀ x ∈ tau, x = 0) ∧
      (∀ e ∈ ev, e.isComputation = false) := by
  refine ⟨[0, 0, 0, 0, 0, 0, 0], _, loopBody_unavailable L g l now h, rfl, rfl, ?_, ?_⟩
  · intro x hx
    simpa using hx
  · intro e he
    simp only [List.mem_cons, List.mem_singleton, List.not_mem_nil, or_false] at he
    rcases he with rfl | rfl <;> rfl

/-- An instance of C1: a pass in the initial state, before any message has arrived. -/
theorem zero_torque_when_input_unavailable_witness :
    ((Globals.initial : Globals ℚ).robot_state_available = false ∨
      (Globals.initial : Globals ℚ).aruco_pose_available = false) ∧
    ∃ (tau : List ℚ) (ev : List (Event ℚ)),
      loopBody demoLibm Globals.initial demoLocals 3 = some (demoLocals, ev, Flow.next) ∧
      ev = [Event.publishTorque tau, Event.publishError demoLocals.error] ∧
      tau.length = 7 ∧ (∀ x ∈ tau, x = 0) ∧
      (∀ e ∈ ev, e.isComputation = false) :=
  ⟨Or.inl rfl,
    zero_torque_when_input_unavailable demoLibm Globals.initial demoLocals 3 (Or.inl rfl)⟩

/-- C2: on a pass with both inputs available and clock reading `t`, where
`init_time_slot = 1` and `traj_duration + init_time_slot = 5/2`:
if `t ≤ 1` the planner is evaluated at time 0 and the control step runs on
`holdState` (zero desired velocity and acceleration, desired position the planner's
position at time 0, whatever `t` is); if `1 < t ≤ 5/2` the planner is evaluated at
`t - 1` and the control step runs on `followState` (planner velocity and acceleration
as linear parts, zero angular parts); if `t > 5/2` the pass ends in `break`.
Exactly one of the three cases holds. -/
theorem planner_time_by_window {C : Collaborators α} (L : Libm α) (g : Globals α)
    (l : Locals α C) (t : α) (hr : g.robot_state_available = true)
    (ha : g.aruco_pose_available = true) :
    ((init_time_slot : α) = 1 ∧ (traj_duration + init_time_slot : α) = 5 / 2) ∧
    (t ≤ 1 →
      loopBody L g l t =
        (control L g
          (holdState { l with robot := C.update l.robot g.jnt_pos g.jnt_vel, t := t })).map
          (fun r => (r.1,
            [Event.robotUpdate g.jnt_pos g.jnt_vel, Event.logTime t,
             Event.computeTrajectory 0 traj_choice] ++ r.2, Flow.next)) ∧
      (holdState { l with robot := C.update l.robot g.jnt_pos g.jnt_vel, t := t }).des_pose.p
        = (l.planner 0 traj_choice).pos ∧
      (holdState { l with robot := C.update l.robot g.jnt_pos g.jnt_vel, t := t }).des_cart_vel
        = Twist.Zero ∧
      (holdState { l with robot := C.update l.robot g.jnt_pos g.jnt_vel, t := t }).des_cart_acc
        = Twist.Zero) ∧
    (1 < t → t ≤ 5 / 2 →
      loopBody L g l t =
        (control L g
          (followState { l with robot := C.update l.robot g.jnt_pos g.jnt_vel, t := t })).map
          (fun r => (r.1,
            [Event.robotUpdate g.jnt_pos g.jnt_vel, Event.logTime t,
             Event.computeTrajectory (t - 1) traj_choice] ++ r.2, Flow.next)) ∧
      (followState { l with robot := C.update l.robot g.jnt_pos g.jnt_vel, t := t }).des_pose.p
        = (l.planner (t - 1) traj_choice).pos ∧
      (followState { l with robot := C.update l.robot g.jnt_pos g.jnt_vel, t := t }).des_cart_vel
        = ⟨(l.planner (t - 1) traj_choice).vel, ⟨0, 0, 0⟩⟩ ∧
      (followState { l with robot := C.update l.robot g.jnt_pos g.jnt_vel, t := t }).des_cart_acc
        = ⟨(l.planner (t - 1) traj_choice).acc, ⟨0, 0, 0⟩⟩) ∧
    (5 / 2 < t →
      ∃ l1, loopBody L g l t = some (l1,
        [Event.robotUpdate g.jnt_pos g.jnt_vel, Event.logTime t,
         Event.log "trajectory terminated"], Flow.exit)) ∧
    (t ≤ 1 ∨ (1 < t ∧ t ≤ 5 / 2) ∨ 5 / 2 < t) ∧
    ¬ (t ≤ 1 ∧ 1 < t) ∧ ¬ (t ≤ 1 ∧ 5 / 2 < t) ∧ ¬ (t ≤ 5 / 2 ∧ 5 / 2 < t) := by
  have hinit : (init_time_slot : α) = 1 := rfl
  have hend : (traj_duration + init_time_slot : α) = 5 / 2 := by
    simp only [traj_duration, init_time_slot]
    norm_num
  refine ⟨⟨hinit, hend⟩, ?_, ?_, ?_, ?_, ?_, ?_, ?_⟩
  · intro h
    exact ⟨loopBody_hold L g l t hr ha (by rw [hinit]; exact h), rfl, rfl, rfl⟩
  · intro h1 h2
    have hfollow := loopBody_follow L g l t hr ha (by rw [hinit]; exact h1)
      (by rw [hend]; exact h2)
    simp only [hinit] at hfollow
    exact ⟨hfollow, rfl, rfl, rfl⟩
  · intro h
    exact ⟨_, loopBody_exit L g l t hr ha (by rw [hend]; exact h)⟩
  · rcases le_or_lt t 1 with h1 | h1
    · exact Or.inl h1
    · rcases le_or_lt t (5 / 2) with h2 | h2
      · exact Or.inr (Or.inl ⟨h1, h2⟩)
      · exact Or.inr (Or.inr h2)
  · exact fun h => absurd h.2 (not_lt.mpr h.1)
  · intro h
    have : (1 : α) < 5 / 2 := by norm_num
    exact absurd (lt_of_lt_of_le (lt_trans this h.2) h.1) (lt_irrefl _)
  · exact fun h => absurd h.2 (not_lt.mpr h.1)

/-- An instance of C2: a pass at clock reading 1/2, inside the settle window. -/
theorem planner_time_by_window_witness :
    (demoGlobals.robot_state_available = true ∧ demoGlobals.aruco_pose_available = true) ∧
    ((1 / 2 : ℚ) ≤ 1 →
      loopBody demoLibm demoGlobals demoLocals (1 / 2) =
        (control demoLibm demoGlobals
          (holdState { demoLocals with
            robot := demoCollaborators.update demoLocals.robot demoGlobals.jnt_pos
              demoGlobals.jnt_vel,
            t := 1 / 2 })).map
          (fun r => (r.1,
            [Event.robotUpdate demoGlobals.jnt_pos demoGlobals.jnt_vel, Event.logTime (1 / 2),
             Event.computeTrajectory 0 traj_choice] ++ r.2, Flow.next)) ∧
      (holdState { demoLocals with
          robot := demoCollaborators.update demoLocals.robot demoGlobals.jnt_pos
            demoGlobals.jnt_vel,
          t := 1 / 2 }).des_pose.p = (demoLocals.planner 0 traj_choice).pos ∧
      (holdState { demoLocals with
          robot := demoCollaborators.update demoLocals.robot demoGlobals.jnt_pos
            demoGlobals.jnt_vel,
          t := 1 / 2 }).des_cart_vel = Twist.Zero ∧
      (holdState { demoLocals with
          robot := demoCollaborators.update demoLocals.robot demoGlobals.jnt_pos
            demoGlobals.jnt_vel,
          t := 1 / 2 }).des_cart_acc = Twist.Zero) :=
  ⟨⟨rfl, rfl⟩, (planner_time_by_window demoLibm demoGlobals demoLocals (1 / 2) rfl rfl).2.1⟩

end LoopTheorems

section RunTheorems

variable {α : Type} [LinearOrderedField α]

theorem controlLoop_no_pause {C : Collaborators α} (L : Libm α)
    (inputs : List (TickInput α)) (g : Globals α) (l : Locals α C) (run : Run α)
    (h : controlLoop L g l inputs = some run) :
    run.ticks.flatten.countP Event.isPause = 0 := by
  obtain ⟨h1, h2⟩ := controlLoop_shape L inputs g l run h
  cases hb : run.broke with
  | false => exact (flatten_counts run.ticks (h1 hb)).2.2
  | true =>
    obtain ⟨before, term, hticks, hbefore, hterm⟩ := h2 hb
    rw [hticks, List.flatten_append, List.countP_append, (flatten_counts before hbefore).2.2]
    simp [(terminating_counts hterm).2.2.1]

/-- C3 (as stated, refuted): with the joint state available but no target pose yet, a
pass at clock reading `3 > 2.5` publishes zero torque and ends at the bottom of the
loop body, not in `break`; the loop goes on and is left only when `ros::ok()` turns
false. -/
theorem no_termination_while_target_pose_missing :
    (traj_duration + init_time_slot : ℚ) < 3 ∧
    loopBody demoLibm demoGlobalsNoTarget demoLocals 3 = some (demoLocals,
      [Event.publishTorque [0, 0, 0, 0, 0, 0, 0], Event.publishError 0], Flow.next) ∧
    controlLoop demoLibm demoGlobalsNoTarget demoLocals
        [⟨true, 3, []⟩, ⟨true, 4, []⟩, ⟨false, 5, []⟩] = some
      { ticks := [[Event.publishTorque [0, 0, 0, 0, 0, 0, 0], Event.publishError 0],
                  [Event.publishTorque [0, 0, 0, 0, 0, 0, 0], Event.publishError 0]],
        broke := false } := by
  refine ⟨by simp only [traj_duration, init_time_slot]; norm_num, rfl, rfl⟩

/-- C3 (amended): on a pass on which both inputs are available and the clock reading
exceeds `traj_duration + init_time_slot` (2.5 s), the loop is left by `break` on that
pass, whatever inputs would follow; and every run that reaches the creation of the
robot and finishes has issued exactly one pause request, after the loop, as its last
call. -/
theorem termination_after_trajectory_window {C : Collaborators α} (L : Libm α)
    (g : Globals α) (l : Locals α C) (inp : TickInput α) (rest : List (TickInput α))
    (hok : inp.ros_ok = true) (hr : g.robot_state_available = true)
    (ha : g.aruco_pose_available = true)
    (ht : traj_duration + init_time_slot < inp.now) :
    (traj_duration + init_time_slot : α) = 5 / 2 ∧
    controlLoop L g l (inp :: rest) = some
      { ticks := [[Event.robotUpdate g.jnt_pos g.jnt_vel, Event.logTime inp.now,
                   Event.log "trajectory terminated"]],
        broke := true } ∧
    (∀ (robot_string : String) (g0 : Globals α) (inputs : List (TickInput α))
        (pause_ok : Bool) (trace : List (Event α)),
      mainFromCreate C L robot_string g0 inputs pause_ok = some trace →
      trace.countP Event.isPause = 1 ∧
      ∃ (pre : List (Event α)) (text : String),
        trace = pre ++ [Event.pausePhysics, Event.log text] ∧
        pre.countP Event.isPause = 0) := by
  refine ⟨?_, ?_, ?_⟩
  · simp only [traj_duration, init_time_slot]
    norm_num
  · simp only [controlLoop, hok, if_true, loopBody_exit L g l inp.now hr ha ht]
  · intro robot_string g0 inputs pause_ok trace hmain
    simp only [mainFromCreate, Option.map_eq_some'] at hmain
    obtain ⟨run, hrun, rfl⟩ := hmain
    have hticks := controlLoop_no_pause L inputs g0 _ run hrun
    have hlogs : (createRobot C robot_string).1.countP Event.isPause = 0 :=
      List.countP_eq_zero.mpr fun e he => by simp [(createRobot_logs C robot_string e he).1]
    have hpre : ((createRobot C robot_string).1
        ++ [Event.robotUpdate g0.jnt_pos g0.jnt_vel, Event.robotUpdate g0.jnt_pos g0.jnt_vel,
            Event.computeTrajectory 0 traj_choice, Event.log "Starting control loop ..."]
        ++ run.ticks.flatten).countP Event.isPause = 0 := by
      simp [List.countP_append, hlogs, hticks, List.countP_cons, Event.isPause]
    refine ⟨?_, _, _, rfl, hpre⟩
    rw [List.countP_append, hpre]
    simp [List.countP_cons, Event.isPause]

/-- An instance of C3 (amended): both inputs available, clock reading 3. -/
theorem termination_after_trajectory_window_witness :
    ((⟨true, 3, []⟩ : TickInput ℚ).ros_ok = true ∧
      demoGlobals.robot_state_available = true ∧ demoGlobals.aruco_pose_available = true ∧
      (traj_duration + init_time_slot : ℚ) < (⟨true, 3, []⟩ : TickInput ℚ).now) ∧
    controlLoop demoLibm demoGlobals demoLocals [⟨true, 3, []⟩] = some
      { ticks := [[Event.robotUpdate demoGlobals.jnt_pos demoGlobals.jnt_vel, Event.logTime 3,
                   Event.log "trajectory terminated"]],
        broke := true } :=
  have ht : (traj_duration + init_time_slot : ℚ) < (⟨true, 3, []⟩ : TickInput ℚ).now := by
    simp only [traj_duration, init_time_slot]
    norm_num
  ⟨⟨rfl, rfl, rfl, ht⟩,
    (termination_after_trajectory_window demoLibm demoGlobals demoLocals ⟨true, 3, []⟩ []
      rfl rfl rfl ht).2.1⟩

end RunTheorems

theorem lastTorque_append_some {α : Type} (a b : List (Event α)) (t : List α)
    (h : lastTorque b = some t) : lastTorque (a ++ b) = some t := by
  induction a with
  | nil => simpa using h
  | cons x xs ih =>
    cases x <;> simp [lastTorque, ih]

theorem lastTorque_publishing {α : Type} {tick : List (Event α)}
    (h : IsPublishingTick tick) : ∃ t, lastTorque tick = some t ∧ t.length = 7 := by
  obtain ⟨pre, t, e, rfl, hlen, _⟩ := h
  exact ⟨t, lastTorque_append_some pre _ t (by simp [lastTorque]), hlen⟩

section TerminationTheorems

variable {α : Type} [LinearOrderedField α]

/-- C10: in a run whose loop was left by `break`, the last pass is the terminating
one (robot update, time print, termination message, at a clock reading above 2.5) and
contains no torque and no error publication; every earlier pass publishes exactly one
torque set and one error value, so the number of published torque sets is the number
of passes minus one; the torque set published last in the whole run is the one of the
pass before the terminating one. Conversely a pass with both inputs available and
clock reading above 2.5 is such a terminating pass. -/
theorem no_publication_on_terminating_tick {C : Collaborators α} (L : Libm α)
    (g : Globals α) (l : Locals α C) (inputs : List (TickInput α)) (run : Run α)
    (hrun : controlLoop L g l inputs = some run) (hb : run.broke = true) :
    (∃ (before : List (List (Event α))) (q dq : List α) (now : α),
      run.ticks = before ++
        [[Event.robotUpdate q dq, Event.logTime now, Event.log "trajectory terminated"]] ∧
      traj_duration + init_time_slot < now ∧
      (∀ tick ∈ before, IsPublishingTick tick) ∧
      run.ticks.flatten.countP Event.isPublishTorque = before.length ∧
      run.ticks.flatten.countP Event.isPublishError = before.length ∧
      before.length + 1 = run.ticks.length ∧
      lastTorque run.ticks.flatten = lastTorque before.flatten ∧
      (∀ (earlier : List (List (Event α))) (prev : List (Event α)),
        before = earlier ++ [prev] →
        ∃ t, lastTorque prev = some t ∧ lastTorque run.ticks.flatten = some t)) ∧
    (∀ (g1 : Globals α) (l1 : Locals α C) (now : α),
      g1.robot_state_available = true → g1.aruco_pose_available = true →
      traj_duration + init_time_slot < now →
      ∃ l2, loopBody L g1 l1 now = some (l2,
        [Event.robotUpdate g1.jnt_pos g1.jnt_vel, Event.logTime now,
         Event.log "trajectory terminated"], Flow.exit)) := by
  refine ⟨?_, fun g1 l1 now hr ha ht => ⟨_, loopBody_exit L g1 l1 now hr ha ht⟩⟩
  obtain ⟨before, term, hticks, hbefore, hterm⟩ := (controlLoop_shape L inputs g l run hrun).2 hb
  obtain ⟨c1, c2, _, c4⟩ := terminating_counts hterm
  obtain ⟨b1, b2, _⟩ := flatten_counts before hbefore
  obtain ⟨q, dq, now, hq, hlate⟩ := hterm
  have hlast : lastTorque run.ticks.flatten = lastTorque before.flatten := by
    rw [hticks, List.flatten_append]
    exact lastTorque_append_none _ _ (by simpa using c4)
  refine ⟨before, q, dq, now, by rw [hticks, hq], hlate, hbefore, ?_, ?_, ?_, hlast, ?_⟩
  · rw [hticks, List.flatten_append, List.countP_append, b1]
    simpa using c1
  · rw [hticks, List.flatten_append, List.countP_append, b2]
    simpa using c2
  · rw [hticks]
    simp
  · intro earlier prev hsplit
    obtain ⟨t, ht, _⟩ := lastTorque_publishing (hbefore prev (by simp [hsplit]))
    refine ⟨t, ht, ?_⟩
    rw [hlast, hsplit, List.flatten_append]
    exact lastTorque_append_some _ _ t (by simpa using ht)

/-- An instance of C10: a zero-torque pass during which the target pose arrives, then
the terminating pass at clock reading 3. -/
theorem no_publication_on_terminating_tick_witness :
    (controlLoop demoLibm demoGlobalsNoTarget demoLocals
        [⟨true, 1, [Msg.aruco ⟨0, 0, 1, 0, 0, 0, 1⟩]⟩, ⟨true, 3, []⟩] = some
      { ticks := [[Event.publishTorque [0, 0, 0, 0, 0, 0, 0], Event.publishError 0],
                  [Event.robotUpdate [1, 2, 3, 4, 5, 6, 7] [0, 0, 0, 0, 0, 0, 0],
                   Event.logTime 3, Event.log "trajectory terminated"]],
        broke := true } ∧
      (⟨[[Event.publishTorque [0, 0, 0, 0, 0, 0, 0], Event.publishError 0],
          [Event.robotUpdate [1, 2, 3, 4, 5, 6, 7] [0, 0, 0, 0, 0, 0, 0],
           Event.logTime 3, Event.log "trajectory terminated"]], true⟩ : Run ℚ).broke = true) ∧
    ∀ (g1 : Globals ℚ) (l1 : Locals ℚ demoCollaborators) (now : ℚ),
      g1.robot_state_available = true → g1.aruco_pose_available = true →
      traj_duration + init_time_slot < now →
      ∃ l2, loopBody demoLibm g1 l1 now = some (l2,
        [Event.robotUpdate g1.jnt_pos g1.jnt_vel, Event.logTime now,
         Event.log "trajectory terminated"], Flow.exit) :=
  have hrun : controlLoop demoLibm demoGlobalsNoTarget demoLocals
      [⟨true, 1, [Msg.aruco ⟨0, 0, 1, 0, 0, 0, 1⟩]⟩, ⟨true, 3, []⟩] = some
      { ticks := [[Event.publishTorque [0, 0, 0, 0, 0, 0, 0], Event.publishError 0],
                  [Event.robotUpdate [1, 2, 3, 4, 5, 6, 7] [0, 0, 0, 0, 0, 0, 0],
                   Event.logTime 3, Event.log "trajectory terminated"]],
        broke := true } := by
    have ht : (traj_duration + init_time_slot : ℚ) < 3 := by
      simp only [traj_duration, init_time_slot]
      norm_num
    have hfirst : loopBody demoLibm demoGlobalsNoTarget demoLocals 1 = _ :=
      loopBody_unavailable demoLibm demoGlobalsNoTarget demoLocals 1 (Or.inr rfl)
    simp only [controlLoop, if_true, hfirst, spinOnce, deliver, Option.some_bind]
    rw [loopBody_exit demoLibm _ demoLocals 3 rfl rfl ht]
    rfl
  ⟨⟨hrun, rfl⟩,
    (no_publication_on_terminating_tick demoLibm demoGlobalsNoTarget demoLocals _ _
      hrun rfl).2⟩

end TerminationTheorems

theorem publish_of_seven {α : Type} (tau : List α) (error : α) (h : 7 ≤ tau.length) :
    publish tau error
      = some [Event.publishTorque (tau.take 7), Event.publishError error] := by
  rcases tau with _ | ⟨t0, _ | ⟨t1, _ | ⟨t2, _ | ⟨t3, _ | ⟨t4, _ | ⟨t5, _ | ⟨t6, rest⟩⟩⟩⟩⟩⟩⟩
  all_goals first | (simp at h; done) | simp [publish]

theorem targetPosition_of_pose {α : Type} (g : Globals α) (a0 a1 a2 a3 a4 a5 a6 : α)
    (h : g.aruco_pose = [a0, a1, a2, a3, a4, a5, a6]) :
    targetPosition g = some ⟨a0, a1, a2⟩ := by
  simp only [targetPosition, h]
  rfl

theorem currentJoints_of_seven {α : Type} (g : Globals α) (h : 7 ≤ g.jnt_pos.length) :
    ∃ qd : List α, qd.length = 7 ∧ currentJoints g 7 = some qd := by
  refine ⟨[g.jnt_pos[0], g.jnt_pos[1], g.jnt_pos[2], g.jnt_pos[3], g.jnt_pos[4],
    g.jnt_pos[5], g.jnt_pos[6]], rfl, ?_⟩
  simp only [currentJoints, Option.bind_eq_bind, Option.pure_def,
    List.getElem?_eq_getElem (show 0 < g.jnt_pos.length by omega),
    List.getElem?_eq_getElem (show 1 < g.jnt_pos.length by omega),
    List.getElem?_eq_getElem (show 2 < g.jnt_pos.length by omega),
    List.getElem?_eq_getElem (show 3 < g.jnt_pos.length by omega),
    List.getElem?_eq_getElem (show 4 < g.jnt_pos.length by omega),
    List.getElem?_eq_getElem (show 5 < g.jnt_pos.length by omega),
    List.getElem?_eq_getElem (show 6 < g.jnt_pos.length by omega), Option.some_bind,
    ne_eq, not_true_eq_false, if_false]

section ControlRuns

variable {α : Type} [LinearOrderedField α]

/-- On well-formed inputs the control step completes, and the `des_pose` it leaves
has the orientation `getEEFrame().M * Re * ee_T_cam.M.Inverse()` and the position it
was given. -/
theorem control_of_wellformed {C : Collaborators α} (L : Libm α) (g : Globals α)
    (l : Locals α C) (target : Vec3 α) (htarget : targetPosition g = some target)
    (hjoints : 7 ≤ g.jnt_pos.length) (hn : l.nrJnts = 7)
    (htau : ∀ robot qd dqd ddqd Kp Kd error,
      7 ≤ (C.idCntr robot qd dqd ddqd Kp Kd error).1.length) :
    ∃ r, control L g l = some r ∧
      r.1.des_pose = { l.des_pose with
        M := desiredOrientation (C.getEEFrame l.robot).M (Re L target) l.ee_T_cam.M } := by
  obtain ⟨qd, _, hqd⟩ := currentJoints_of_seven g hjoints
  cases hc : control L g l with
  | none =>
    exfalso
    simp only [control, htarget, hn, hqd, Option.bind_eq_bind, Option.some_bind] at hc
    rw [publish_of_seven _ _ (htau _ _ _ _ _ _ _)] at hc
    simp at hc
  | some r =>
    obtain ⟨target1, _, _, _, ht1, _, _, hpose, _⟩ := control_eq_some L g l r hc
    rw [htarget] at ht1
    cases ht1
    exact ⟨r, rfl, hpose⟩

/-- On well-formed inputs with both inputs available and a clock reading inside the
trajectory window, the loop body completes at its publication step and leaves the
orientation `getEEFrame().M * Re * ee_T_cam.M.Inverse()` in `des_pose.M`. -/
theorem loopBody_of_wellformed {C : Collaborators α} (L : Libm α) (g : Globals α)
    (l : Locals α C) (now : α) (target : Vec3 α)
    (htarget : targetPosition g = some target)
    (hjoints : 7 ≤ g.jnt_pos.length) (hn : l.nrJnts = 7)
    (htau : ∀ robot qd dqd ddqd Kp Kd error,
      7 ≤ (C.idCntr robot qd dqd ddqd Kp Kd error).1.length)
    (hr : g.robot_state_available = true) (ha : g.aruco_pose_available = true)
    (hnow : now ≤ traj_duration + init_time_slot) :
    ∃ l1 ev, loopBody L g l now = some (l1, ev, Flow.next) ∧
      l1.des_pose.M = desiredOrientation
        (C.getEEFrame (C.update l.robot g.jnt_pos g.jnt_vel)).M (Re L target)
        l.ee_T_cam.M := by
  rcases le_or_lt now init_time_slot with h1 | h1
  · obtain ⟨r, hrun, hpose⟩ := control_of_wellformed L g
      (holdState { l with robot := C.update l.robot g.jnt_pos g.jnt_vel, t := now })
      target htarget hjoints hn htau
    refine ⟨r.1, [Event.robotUpdate g.jnt_pos g.jnt_vel, Event.logTime now,
      Event.computeTrajectory 0 traj_choice] ++ r.2, ?_, ?_⟩
    · rw [loopBody_hold L g l now hr ha h1, hrun]
      rfl
    · rw [hpose]
      rfl
  · obtain ⟨r, hrun, hpose⟩ := control_of_wellformed L g
      (followState { l with robot := C.update l.robot g.jnt_pos g.jnt_vel, t := now })
      target htarget hjoints hn htau
    refine ⟨r.1, [Event.robotUpdate g.jnt_pos g.jnt_vel, Event.logTime now,
      Event.computeTrajectory (now - init_time_slot) traj_choice] ++ r.2, ?_, ?_⟩
    · rw [loopBody_follow L g l now hr ha h1 hnow, hrun]
      rfl
    · rw [hpose]
      rfl

end ControlRuns

/-! ## Start-up -/

/-- C7 (as stated, refuted): for a description that fails to parse and yields no
tree, `createRobot` prints both failure messages and returns a robot, and the program
goes on: the robot is updated and a torque set is published. -/
theorem startup_continues_after_parse_failure :
    (demoCollaborators.initFile demoCollaborators.emptyModel "missing.urdf").1 = false ∧
    (createRobot demoCollaborators "missing.urdf").1 =
      [Event.log "Failed to parse urdf robot model \n",
       Event.log "Failed to construct kdl tree \n"] ∧
    mainFromCreate demoCollaborators demoLibm "missing.urdf" demoGlobalsNoTarget
        [⟨true, 1 / 2, []⟩, ⟨false, 1, []⟩] false = some
      [Event.log "Failed to parse urdf robot model \n",
       Event.log "Failed to construct kdl tree \n",
       Event.robotUpdate [1, 2, 3, 4, 5, 6, 7] [0, 0, 0, 0, 0, 0, 0],
       Event.robotUpdate [1, 2, 3, 4, 5, 6, 7] [0, 0, 0, 0, 0, 0, 0],
       Event.computeTrajectory 0 2,
       Event.log "Starting control loop ...",
       Event.publishTorque [0, 0, 0, 0, 0, 0, 0],
       Event.publishError 0,
       Event.pausePhysics,
       Event.log "Failed to pause simulation."] := by
  refine ⟨rfl, rfl, rfl⟩

/-- C7 (amended): `createRobot` never returns an error. It returns the robot built
from whatever tree the tree builder left, after printing "Failed to parse urdf robot
model" when parsing failed and "Failed to construct kdl tree" when tree construction
failed; and whatever the two outcomes, the program goes on: the first call after
those messages is the robot update that precedes the control loop. -/
theorem createRobot_reports_and_continues {α : Type} [LinearOrderedField α]
    (C : Collaborators α) (L : Libm α) (robot_string : String) :
    (createRobot C robot_string).2
      = C.mkRobot (C.treeFromUrdfModel (C.initFile C.emptyModel robot_string).2 C.emptyTree).2 ∧
    (createRobot C robot_string).1
      = (if (C.initFile C.emptyModel robot_string).1 = true then []
          else [Event.log "Failed to parse urdf robot model \n"])
        ++ (if (C.treeFromUrdfModel (C.initFile C.emptyModel robot_string).2 C.emptyTree).1 = true
            then [] else [Event.log "Failed to construct kdl tree \n"]) ∧
    (∀ (g : Globals α) (inputs : List (TickInput α)) (pause_ok : Bool)
        (trace : List (Event α)),
      mainFromCreate C L robot_string g inputs pause_ok = some trace →
      ∃ rest, trace = (createRobot C robot_string).1
        ++ Event.robotUpdate g.jnt_pos g.jnt_vel :: rest) := by
  refine ⟨rfl, ?_, ?_⟩
  · simp only [createRobot]
    cases (C.initFile C.emptyModel robot_string).1 <;>
      cases (C.treeFromUrdfModel (C.initFile C.emptyModel robot_string).2 C.emptyTree).1 <;>
      simp
  · intro g inputs pause_ok trace hmain
    simp only [mainFromCreate, Option.map_eq_some'] at hmain
    obtain ⟨run, _, rfl⟩ := hmain
    exact ⟨[Event.robotUpdate g.jnt_pos g.jnt_vel, Event.computeTrajectory 0 traj_choice,
        Event.log "Starting control loop ..."] ++ run.ticks.flatten
        ++ [Event.pausePhysics,
            Event.log (if pause_ok then "Simulation paused." else "Failed to pause simulation.")],
      by simp⟩

/-! ## Look-at geometry -/

theorem epsilon_real_pos : (0 : ℝ) < epsilon := by
  simp only [epsilon]
  norm_num

theorem normalize_real (p : Vec3 ℝ) (h : 0 < p.x * p.x + p.y * p.y + p.z * p.z) :
    normalize realLibm p =
      ⟨p.x / Real.sqrt (p.x * p.x + p.y * p.y + p.z * p.z),
       p.y / Real.sqrt (p.x * p.x + p.y * p.y + p.z * p.z),
       p.z / Real.sqrt (p.x * p.x + p.y * p.y + p.z * p.z)⟩ := by
  simp only [normalize, if_pos h, realLibm]

theorem normalize_on_axis (c : ℝ) (hc : c ≠ 0) :
    normalize realLibm ⟨0, 0, c⟩ = ⟨0, 0, c / |c|⟩ := by
  have h : (0 : ℝ) < 0 * 0 + 0 * 0 + c * c := by
    have := mul_self_pos.mpr hc
    linarith
  rw [normalize_real _ h]
  have hs : Real.sqrt (0 * 0 + 0 * 0 + c * c) = |c| := by
    rw [show (0 : ℝ) * 0 + 0 * 0 + c * c = c * c by ring]
    exact Real.sqrt_mul_self_eq_abs c
  simp only [hs, zero_div]

theorem r_o_eq (L : Libm ℝ) (p : Vec3 ℝ) :
    r_o L p = ⟨-(aruco_pos_n L p).y, (aruco_pos_n L p).x, 0⟩ := by
  simp [r_o, skew, Mat3.mulVec]

theorem aruco_angle_eq (L : Libm ℝ) (p : Vec3 ℝ) :
    aruco_angle L p = L.acos (aruco_pos_n L p).z := by
  simp [aruco_angle, Vec3.dot]

theorem Re_on_axis (c : ℝ) (hc : c ≠ 0) :
    aruco_angle realLibm ⟨0, 0, c⟩ = Real.arccos (c / |c|) ∧
    Vec3.Norm realLibm (r_o realLibm ⟨0, 0, c⟩) = 0 ∧
    Re realLibm ⟨0, 0, c⟩ = Rot2 realLibm ⟨1, 0, 0⟩ (Real.arccos (c / |c|)) := by
  have hnorm : aruco_pos_n realLibm ⟨0, 0, c⟩ = ⟨0, 0, c / |c|⟩ := normalize_on_axis c hc
  have hang : aruco_angle realLibm ⟨0, 0, c⟩ = Real.arccos (c / |c|) := by
    simp only [aruco_angle_eq, hnorm]
    rfl
  have hro : r_o realLibm ⟨0, 0, c⟩ = ⟨-0, 0, 0⟩ := by
    simp only [r_o_eq, hnorm]
  have hzero : Vec3.Norm realLibm (r_o realLibm ⟨0, 0, c⟩) = 0 := by
    rw [hro]
    simp [Vec3.Norm, realLibm]
  have hsmall : Vec3.Norm realLibm (r_o realLibm ⟨0, 0, c⟩) < epsilon := by
    rw [hzero]
    exact epsilon_real_pos
  refine ⟨hang, hzero, ?_⟩
  simp only [Re, Rot, if_pos hsmall, hang]

/-- C5: for a target at `(0, 0, k)` with `k > 0` the look-at rotation `Re` is the
identity, and the value assigned to `des_pose.M`, in general
`robot.getEEFrame().M * Re * ee_T_cam.M.Inverse()`, is then
`robot.getEEFrame().M * ee_T_cam.M.Inverse()`. On such a target, with seven joint
positions, a seven-joint robot and a controller that returns seven torques, the
control step of the loop body completes and leaves that product in `des_pose.M`; so
does the whole loop body on every pass with both inputs available and a clock reading
inside the trajectory window, with the frame of the robot as just updated. -/
theorem look_at_identity_when_target_ahead (k : ℝ) (hk : 0 < k) :
    Re realLibm ⟨0, 0, k⟩ = Mat3.Identity ∧
    (∀ eeM camM : Mat3 ℝ,
      desiredOrientation eeM (Re realLibm ⟨0, 0, k⟩) camM = eeM.mul camM.Inverse) ∧
    (∀ (C : Collaborators ℝ) (g : Globals ℝ) (l : Locals ℝ C) (ox oy oz ow : ℝ),
      g.aruco_pose = [0, 0, k, ox, oy, oz, ow] → 7 ≤ g.jnt_pos.length → l.nrJnts = 7 →
      (∀ robot qd dqd ddqd Kp Kd error,
        7 ≤ (C.idCntr robot qd dqd ddqd Kp Kd error).1.length) →
      (∃ r, control realLibm g l = some r ∧
        r.1.des_pose.M = (C.getEEFrame l.robot).M.mul l.ee_T_cam.M.Inverse ∧
        r.1.des_pose.M
          = desiredOrientation (C.getEEFrame l.robot).M (Re realLibm ⟨0, 0, k⟩)
              l.ee_T_cam.M) ∧
      (∀ now : ℝ, g.robot_state_available = true → g.aruco_pose_available = true →
        now ≤ traj_duration + init_time_slot →
        ∃ l1 ev, loopBody realLibm g l now = some (l1, ev, Flow.next) ∧
          l1.des_pose.M = (C.getEEFrame (C.update l.robot g.jnt_pos g.jnt_vel)).M.mul
            l.ee_T_cam.M.Inverse)) := by
  have hId : Re realLibm ⟨0, 0, k⟩ = Mat3.Identity := by
    rw [(Re_on_axis k hk.ne').2.2, abs_of_pos hk, div_self hk.ne', Real.arccos_one]
    simp [Rot2, realLibm, Mat3.Identity]
  have hcomp : ∀ eeM camM : Mat3 ℝ,
      desiredOrientation eeM (Re realLibm ⟨0, 0, k⟩) camM = eeM.mul camM.Inverse := by
    intro eeM camM
    rw [hId]
    simp [desiredOrientation, Mat3.mul, Mat3.Identity]
  refine ⟨hId, hcomp, ?_⟩
  intro C g l ox oy oz ow hpose hjoints hn htau
  have htarget : targetPosition g = some ⟨0, 0, k⟩ :=
    targetPosition_of_pose g 0 0 k ox oy oz ow hpose
  refine ⟨?_, ?_⟩
  · obtain ⟨r, hrun, hdes⟩ := control_of_wellformed realLibm g l ⟨0, 0, k⟩ htarget
      hjoints hn htau
    have hM : r.1.des_pose.M
        = desiredOrientation (C.getEEFrame l.robot).M (Re realLibm ⟨0, 0, k⟩)
            l.ee_T_cam.M := by
      rw [hdes]
    exact ⟨r, hrun, by rw [hM, hcomp], hM⟩
  · intro now hr ha hnow
    obtain ⟨l1, ev, hrun, hM⟩ := loopBody_of_wellformed realLibm g l now ⟨0, 0, k⟩
      htarget hjoints hn htau hr ha hnow
    exact ⟨l1, ev, hrun, by rw [hM, hcomp]⟩

/-- An instance of C5: the target at `(0, 0, 1)`, seven joints, a pass at clock
reading 1/2; the loop body completes and leaves `des_pose.M` equal to the product. -/
theorem look_at_identity_when_target_ahead_witness :
    (0 : ℝ) < 1 ∧ Re realLibm ⟨0, 0, 1⟩ = Mat3.Identity ∧
    (∃ r, control realLibm demoGlobalsReal demoLocalsReal = some r ∧
      r.1.des_pose.M = (demoCollaboratorsReal.getEEFrame demoLocalsReal.robot).M.mul
        demoLocalsReal.ee_T_cam.M.Inverse) ∧
    (∃ l1 ev, loopBody realLibm demoGlobalsReal demoLocalsReal (1 / 2)
        = some (l1, ev, Flow.next) ∧
      l1.des_pose.M = (demoCollaboratorsReal.getEEFrame
          (demoCollaboratorsReal.update demoLocalsReal.robot demoGlobalsReal.jnt_pos
            demoGlobalsReal.jnt_vel)).M.mul demoLocalsReal.ee_T_cam.M.Inverse) :=
  have htau : ∀ robot qd dqd ddqd Kp Kd error,
      7 ≤ (demoCollaboratorsReal.idCntr robot qd dqd ddqd Kp Kd error).1.length := by
    intro robot qd dqd ddqd Kp Kd error
    simp [demoCollaboratorsReal]
  have hnow : (1 / 2 : ℝ) ≤ traj_duration + init_time_slot := by
    simp only [traj_duration, init_time_slot]
    norm_num
  have hfacts := (look_at_identity_when_target_ahead 1 one_pos).2.2
    demoCollaboratorsReal demoGlobalsReal demoLocalsReal 0 0 0 1 rfl
    (by simp [demoGlobalsReal]) rfl htau
  ⟨one_pos, (look_at_identity_when_target_ahead 1 one_pos).1,
    match hfacts.1 with
    | ⟨r, hrun, hM, _⟩ => ⟨r, hrun, hM⟩,
    hfacts.2 (1 / 2) rfl rfl hnow⟩

/-- C6: for a target at `(0, 0, -k)` with `k > 0` the loop's `aruco_angle` is `π`, the
rotation axis `r_o` has length zero, and `Re` is the rotation by `π` about the
fallback axis: the matrix `diag(1, -1, -1)`, which is orthonormal with determinant 1
and has rotation angle `π`. -/
theorem look_at_half_turn_when_target_behind (k : ℝ) (hk : 0 < k) :
    aruco_angle realLibm ⟨0, 0, -k⟩ = Real.pi ∧
    Vec3.Norm realLibm (r_o realLibm ⟨0, 0, -k⟩) = 0 ∧
    Re realLibm ⟨0, 0, -k⟩ = ⟨1, 0, 0, 0, -1, 0, 0, 0, -1⟩ ∧
    (Re realLibm ⟨0, 0, -k⟩).IsRotation ∧
    rotationAngle realLibm (Re realLibm ⟨0, 0, -k⟩) = Real.pi := by
  have hne : -k ≠ 0 := by linarith
  have hdiv : -k / |-k| = -1 := by
    rw [abs_neg, abs_of_pos hk, neg_div, div_self hk.ne']
  obtain ⟨hang, hzero, hRe⟩ := Re_on_axis (-k) hne
  rw [hdiv, Real.arccos_neg_one] at hang hRe
  have hmat : Re realLibm ⟨0, 0, -k⟩ = ⟨1, 0, 0, 0, -1, 0, 0, 0, -1⟩ := by
    rw [hRe]
    simp only [Rot2, realLibm, Real.cos_pi, Real.sin_pi, Mat3.mk.injEq]
    norm_num
  refine ⟨hang, hzero, hmat, ?_, ?_⟩
  · rw [hmat]
    refine ⟨?_, ?_⟩
    · simp [Mat3.mul, Mat3.Inverse, Mat3.Identity]
    · simp [Mat3.det]
  · rw [hmat]
    simp only [rotationAngle, Mat3.trace, realLibm]
    rw [show ((1 : ℝ) + -1 + -1 - 1) / 2 = -1 by norm_num]
    exact Real.arccos_neg_one

/-- An instance of C6: the target at `(0, 0, -1)`. -/
theorem look_at_half_turn_when_target_behind_witness :
    (0 : ℝ) < 1 ∧ aruco_angle realLibm ⟨0, 0, -1⟩ = Real.pi ∧
    (Re realLibm ⟨0, 0, -1⟩).IsRotation ∧
    rotationAngle realLibm (Re realLibm ⟨0, 0, -1⟩) = Real.pi :=
  ⟨one_pos, (look_at_half_turn_when_target_behind 1 one_pos).1,
    (look_at_half_turn_when_target_behind 1 one_pos).2.2.2.1,
    (look_at_half_turn_when_target_behind 1 one_pos).2.2.2.2⟩

end KdlVisionControl
